import Mathlib

/-!
The `gltransition` video filter of ffmpeg-gl-transition (`vf_gltransition.c`).

A shallow embedding of the filter's C source and proofs about it.

* Machine integers are mathematical integers with explicit two's-complement
  wrapping where the C code computes on them (`int64_t` subtraction, `int`
  length arithmetic).
* `float` and `double` values are modelled by `Fp`: NaN, the two infinities and
  the finite values as rationals (the two signed zeros are identified). Every
  arithmetic operation rounds its exact result with the rounding function of
  its format, a `Rounding`; the theorems hold for every rounding function that
  is monotone, never produces NaN, represents 0 and 1 and maps the 64-bit
  integer range into itself. `ieeeRound` is IEEE-754 rounding to nearest, ties
  to even, and `binary32_binary64_rounding` shows that binary32 and binary64
  are such rounding functions. Each operation is taken to round to the format
  of its C type (`FLT_EVAL_METHOD` 0).
* Calls into libavfilter, EGL and OpenGL are recorded, in program order, in a
  trace of `Call`s; the results those libraries hand back are inputs of the
  model.
* The model is of the build with `GL_TRANSITION_USING_EGL` defined, which the
  source selects on every platform except Apple.
-/

namespace GLTransition

/-! ## Floating-point values -/

/-- A value of a binary floating-point format. -/
inductive Fp where
  | nan
  | ninf
  | fin (q : ℚ)
  | pinf
deriving DecidableEq

namespace Fp

/-- The C comparison `a > b`: false as soon as one side is NaN. -/
def gt : Fp → Fp → Bool
  | nan, _ => false
  | _, nan => false
  | ninf, _ => false
  | fin _, ninf => true
  | fin a, fin b => decide (b < a)
  | fin _, pinf => false
  | pinf, pinf => false
  | pinf, _ => true

/-- The numeric order on the values that are not NaN. -/
def le : Fp → Fp → Prop
  | nan, _ => False
  | _, nan => False
  | ninf, _ => True
  | fin _, ninf => False
  | fin a, fin b => a ≤ b
  | fin _, pinf => True
  | pinf, pinf => True
  | pinf, _ => False

end Fp

/-- The rounding function of a floating-point format: it maps the exact result
of an operation to the value of the format that the operation returns. It
never yields NaN, is monotone, represents 0 and 1, and rounds a value between
-2^63 and 2^63 to a finite value in that range. -/
structure Rounding where
  rnd : ℚ → Fp
  rnd_ne_nan : ∀ q, rnd q ≠ Fp.nan
  rnd_mono : ∀ a b, a ≤ b → Fp.le (rnd a) (rnd b)
  rnd_zero : rnd 0 = Fp.fin 0
  rnd_one : rnd 1 = Fp.fin 1
  rnd_int64 : ∀ q : ℚ, -(2 ^ 63) ≤ q → q ≤ 2 ^ 63 →
    ∃ r, rnd q = Fp.fin r ∧ -(2 ^ 63) ≤ r ∧ r ≤ 2 ^ 63

namespace Fp

/-- Subtraction `a - b` in the format of `R`. -/
def sub (R : Rounding) : Fp → Fp → Fp
  | nan, _ => nan
  | _, nan => nan
  | fin a, fin b => R.rnd (a - b)
  | fin _, pinf => ninf
  | fin _, ninf => pinf
  | pinf, pinf => nan
  | pinf, _ => pinf
  | ninf, ninf => nan
  | ninf, _ => ninf

/-- Division `a / b` in the format of `R`; a zero divisor counts as `+0`. -/
def div (R : Rounding) : Fp → Fp → Fp
  | nan, _ => nan
  | _, nan => nan
  | fin a, fin b =>
    if b = 0 then (if a = 0 then nan else if 0 < a then pinf else ninf)
    else R.rnd (a / b)
  | fin _, pinf => fin 0
  | fin _, ninf => fin 0
  | pinf, fin b => if 0 ≤ b then pinf else ninf
  | ninf, fin b => if 0 ≤ b then ninf else pinf
  | pinf, _ => nan
  | ninf, _ => nan

/-- Conversion of a value to the format of `R` (`double` to `float`). -/
def cvt (R : Rounding) : Fp → Fp
  | fin a => R.rnd a
  | x => x

end Fp

/-- Arithmetic without rounding error: every rational is representable. -/
def exactRounding : Rounding where
  rnd := Fp.fin
  rnd_ne_nan := fun _ h => Fp.noConfusion h
  rnd_mono := fun _ _ h => h
  rnd_zero := rfl
  rnd_one := rfl
  rnd_int64 := fun q lo hi => ⟨q, rfl, lo, hi⟩

/-- Rounding of a rational to the nearest integer, ties to the even one. -/
def roundNearestEven (x : ℚ) : ℤ :=
  if x - ⌊x⌋ < 1 / 2 then ⌊x⌋
  else if 1 / 2 < x - ⌊x⌋ then ⌊x⌋ + 1
  else if ⌊x⌋ % 2 = 0 then ⌊x⌋ else ⌊x⌋ + 1

/-- The exponent of the unit in the last place of `x ≥ 0` in a binary format
with `p` significand bits and least normal exponent `emin`: below `2 ^ emin`
the spacing of the subnormal numbers applies. -/
def ulpExponent (p : ℕ) (emin : ℤ) (x : ℚ) : ℤ := max (Int.log 2 x) emin - ((p : ℤ) - 1)

/-- Rounding of `x ≥ 0` to the nearest multiple of its unit in the last place,
ties to even, with an unbounded exponent range upwards. -/
def ieeeRoundMagnitude (p : ℕ) (emin : ℤ) (x : ℚ) : ℚ :=
  roundNearestEven (x / 2 ^ ulpExponent p emin x) * 2 ^ ulpExponent p emin x

/-- Rounding of any rational: the magnitude is rounded, the sign kept. -/
def ieeeRoundSigned (p : ℕ) (emin : ℤ) (x : ℚ) : ℚ :=
  if x < 0 then -ieeeRoundMagnitude p emin (-x) else ieeeRoundMagnitude p emin x

/-- IEEE-754 rounding to nearest, ties to even, of a binary format with `p`
significand bits and exponents from `emin` to `emax`: a result of magnitude
`2 ^ (emax + 1)` or more overflows to an infinity. binary32 is
`ieeeRound 24 (-126) 127`, binary64 is `ieeeRound 53 (-1022) 1023`. -/
def ieeeRound (p : ℕ) (emin emax : ℤ) (x : ℚ) : Fp :=
  if 2 ^ (emax + 1) ≤ ieeeRoundSigned p emin x then Fp.pinf
  else if ieeeRoundSigned p emin x ≤ -(2 ^ (emax + 1)) then Fp.ninf
  else Fp.fin (ieeeRoundSigned p emin x)

/-! ## Machine integers -/

/-- Two's-complement wrapping of an integer to `int64_t`. -/
def wrapInt64 (n : ℤ) : ℤ := Int.bmod n (2 ^ 64)

/-- Two's-complement wrapping of an integer to `int`. -/
def wrapInt32 (n : ℤ) : ℤ := Int.bmod n (2 ^ 32)

/-- Modelled from the spec: the macro `AV_NOPTS_VALUE` of libavutil/avutil.h is
not under src/; it is the "unset" timestamp, `0x8000000000000000` as
`int64_t`. -/
def AV_NOPTS_VALUE : ℤ := -(2 ^ 63)

/-! ## Progress of the transition (`apply_transition`, lines 391-392) -/

/-- Modelled from the spec: the macro `FFMAX` of libavutil/common.h is not under
src/; the clamp keeps the larger argument, `((a) > (b) ? (a) : (b))`. -/
def FFMAX (a b : Fp) : Fp := if Fp.gt a b then a else b

/-- Modelled from the spec: the macro `FFMIN` of libavutil/common.h is not under
src/; the clamp keeps the smaller argument, `((a) > (b) ? (b) : (a))`. -/
def FFMIN (a b : Fp) : Fp := if Fp.gt a b then b else a

/-- The local `ts`:
`((fs->pts - c->first_pts) / (float)fs->time_base.den) - c->offset`, stored in a
`float`. The `int64_t` difference is converted to `float` for the division, the
subtraction of the `double` offset is done in `double`. -/
def transitionTs (F D : Rounding) (pts first_pts den : ℤ) (offset : Fp) : Fp :=
  Fp.cvt F
    (Fp.sub D (Fp.div F (F.rnd (wrapInt64 (pts - first_pts))) (F.rnd den)) offset)

/-- The local `progress`: `FFMAX(0.0f, FFMIN(1.0f, ts / c->duration))`, computed
in `double` and stored in a `float`. -/
def progress (F D : Rounding) (pts first_pts den : ℤ) (offset duration : Fp) : Fp :=
  Fp.cvt F
    (FFMAX (Fp.fin 0)
      (FFMIN (Fp.fin 1) (Fp.div D (transitionTs F D pts first_pts den offset) duration)))

/-! ## Frames, links and the filter's private context -/

/-- An `AVFrame`, as far as the filter reads it: the address of the pixel
buffer `data[0]`, the row stride `linesize[0]` in bytes, the timestamp, and the
remaining properties that `av_frame_copy_props` copies. -/
structure Frame where
  data : ℕ
  linesize : ℤ
  pts : ℤ
  props : ℕ
deriving DecidableEq

/-- An `AVFilterLink`, as far as the filter reads it. -/
structure Link where
  format : ℤ
  w : ℤ
  h : ℤ
  frame_rate : ℤ × ℤ
deriving DecidableEq

/-- The links of the filter: `ctx->inputs[FROM]`, `ctx->inputs[TO]` and
`ctx->outputs[0]`. -/
structure Links where
  fromLink : Link
  toLink : Link
  outLink : Link
deriving DecidableEq

/-- The struct `GLTransitionContext` (without the `AVClass` pointer and the
frame synchronizer, which libavfilter owns). Handles and pointers are numbers,
0 being the null handle; `f_shader_source` holds the bytes of the allocated
buffer, `none` being the null pointer. -/
structure GLTransitionContext where
  duration : Fp
  offset : Fp
  source : Option String
  first_pts : ℤ
  from_ : ℕ
  to_ : ℕ
  progress : ℤ
  ratio : ℤ
  _fromR : ℤ
  _toR : ℤ
  posBuf : ℕ
  program : ℕ
  eglDpy : ℕ
  eglCfg : ℕ
  eglSurf : ℕ
  eglCtx : ℕ
  f_shader_source : Option (List Char)
deriving DecidableEq

/-- The context as libavfilter hands it to `init`: zero-filled (`priv_size`
bytes from `av_mallocz`), then the three options set. -/
def GLTransitionContext.zeroed (duration offset : Fp) (source : Option String) :
    GLTransitionContext where
  duration := duration
  offset := offset
  source := source
  first_pts := 0
  from_ := 0
  to_ := 0
  progress := 0
  ratio := 0
  _fromR := 0
  _toR := 0
  posBuf := 0
  program := 0
  eglDpy := 0
  eglCfg := 0
  eglSurf := 0
  eglCtx := 0
  f_shader_source := none

/-- Modelled from the spec: the macro `AVERROR` of libavutil/error.h is not
under src/; `AVERROR(ENOMEM)`, the out-of-memory error, is the negated errno
value 12. -/
def AVERROR_ENOMEM : ℤ := -12

/-- Modelled from the spec: `AVERROR(EINVAL)`, the invalid-argument error of a
configuration that does not fit, is the negated errno value 22. -/
def AVERROR_EINVAL : ℤ := -22

/-! ## The trace of library calls -/

/-- The two shader kinds `build_shader` is called with. -/
inductive ShaderType where
  | GL_VERTEX_SHADER
  | GL_FRAGMENT_SHADER
deriving DecidableEq

/-- The pixel-store parameters the filter sets. -/
inductive PixelStoreParam where
  | GL_UNPACK_ALIGNMENT
  | GL_UNPACK_ROW_LENGTH
  | GL_PACK_ROW_LENGTH
deriving DecidableEq

/-- One call into libavutil, libavfilter, libc, EGL, GLEW or OpenGL, with the
arguments the filter passes and, for a call that creates something, the handle
or result the library returned. Arguments that are constants of the source are
left out, and three runs of calls with constant arguments are one entry each:
`read_and_fclose` (the `fseek`, `ftell`, `malloc`, `fread` and `fclose` that
read the transition file), `glBufferData_position` and
`glTexParameteri_clamp_linear` (the four texture parameters). The device query
before `eglGetPlatformDisplayEXT` is part of that entry, and
`av_log_debug_egl_version` is the debug log of the two EGL version numbers. -/
inductive Call where
  | av_log_error (msg : String)
  | av_log_debug (text : List Char)
  | av_log_debug_egl_version
  | ff_framesync_dualinput_get
  | ff_filter_frame (frame : Option Frame)
  | ff_get_video_buffer (w h : ℤ)
  | av_frame_copy_props (dst src : Frame)
  | av_frame_free (frame : Frame)
  | ff_framesync_init_dualinput
  | ff_framesync_configure
  | ff_framesync_uninit
  | av_calloc (nmemb : ℤ) (ok : Bool)
  | av_freep_f_shader_source
  | fopen (path : String) (ok : Bool)
  | read_and_fclose (bytes : List Char)
  | free_source
  | eglGetPlatformDisplayEXT (dpy : ℕ)
  | eglInitialize (dpy : ℕ)
  | eglChooseConfig (dpy cfg : ℕ)
  | eglCreatePbufferSurface (dpy cfg : ℕ) (w h : ℤ) (surf : ℕ)
  | eglBindAPI
  | eglCreateContext (dpy cfg ctx : ℕ)
  | eglMakeCurrent (dpy surf ctx : ℕ)
  | eglTerminate (dpy : ℕ)
  | glewInit
  | glViewport (w h : ℤ)
  | glCreateShader (type : ShaderType) (shader : ℕ)
  | glIsShader (shader : ℕ) (ok : Bool)
  | glShaderSource (shader : ℕ) (text : List Char)
  | glCompileShader (shader : ℕ)
  | glGetShaderiv_COMPILE_STATUS (shader : ℕ) (ok : Bool)
  | glCreateProgram (program : ℕ)
  | glAttachShader (program shader : ℕ)
  | glLinkProgram (program : ℕ)
  | glGetProgramiv_LINK_STATUS (program : ℕ) (ok : Bool)
  | glUseProgram (program : ℕ)
  | glGenBuffers (buffer : ℕ)
  | glBindBuffer (buffer : ℕ)
  | glBufferData_position
  | glGetAttribLocation (program : ℕ) (name : String) (loc : ℤ)
  | glEnableVertexAttribArray (loc : ℤ)
  | glVertexAttribPointer (loc : ℤ)
  | glGenTextures (texture : ℕ)
  | glActiveTexture (unit : ℕ)
  | glBindTexture (texture : ℕ)
  | glTexParameteri_clamp_linear
  | glTexImage2D (w h : ℤ) (data : Option ℕ)
  | glGetUniformLocation (program : ℕ) (name : String) (loc : ℤ)
  | glUniform1i (loc : ℤ) (v : ℤ)
  | glUniform1f (loc : ℤ) (v : Fp)
  | glPixelStorei (pname : PixelStoreParam) (param : ℤ)
  | glDrawArrays (first count : ℤ)
  | glReadPixels (w h : ℤ) (data : ℕ)
  | glDeleteTextures (texture : ℕ)
  | glDeleteBuffers (buffer : ℕ)
  | glDeleteProgram (program : ℕ)

/-! ## Rendering one frame pair (`apply_transition`, lines 365-419) -/

/-- `apply_transition`. `alloc` is what `ff_get_video_buffer` returns. The
result is `none` when the C code has no defined behaviour (a null `fromFrame`
is dereferenced once the output buffer exists); otherwise it is the returned
frame pointer (`none` for `NULL`) with the calls made, in order. -/
def apply_transition (F D : Rounding) (c : GLTransitionContext) (links : Links)
    (pts den : ℤ) (fromFrame : Option Frame) (toFrame : Frame) (alloc : Option Frame) :
    Option (Option Frame × List Call) :=
  match alloc with
  | none => some (none, [Call.ff_get_video_buffer links.outLink.w links.outLink.h])
  | some outFrame =>
    match fromFrame with
    | none => none
    | some fromFrame =>
      let outFrame1 : Frame := { outFrame with pts := fromFrame.pts, props := fromFrame.props }
      some (some outFrame1,
        [ Call.ff_get_video_buffer links.outLink.w links.outLink.h,
          Call.av_frame_copy_props outFrame fromFrame,
          Call.eglMakeCurrent c.eglDpy c.eglSurf c.eglCtx,
          Call.glUseProgram c.program,
          Call.glUniform1f c.progress (progress F D pts c.first_pts den c.offset c.duration),
          Call.glPixelStorei PixelStoreParam.GL_UNPACK_ALIGNMENT 1,
          Call.glActiveTexture 0,
          Call.glBindTexture c.from_,
          Call.glPixelStorei PixelStoreParam.GL_UNPACK_ROW_LENGTH (Int.tdiv fromFrame.linesize 3),
          Call.glTexImage2D links.fromLink.w links.fromLink.h (some fromFrame.data),
          Call.glActiveTexture 1,
          Call.glBindTexture c.to_,
          Call.glPixelStorei PixelStoreParam.GL_UNPACK_ROW_LENGTH (Int.tdiv toFrame.linesize 3),
          Call.glTexImage2D links.toLink.w links.toLink.h (some toFrame.data),
          Call.glDrawArrays 0 6,
          Call.glPixelStorei PixelStoreParam.GL_PACK_ROW_LENGTH (Int.tdiv outFrame1.linesize 3),
          Call.glReadPixels links.outLink.w links.outLink.h outFrame1.data,
          Call.glPixelStorei PixelStoreParam.GL_PACK_ROW_LENGTH 0,
          Call.glPixelStorei PixelStoreParam.GL_UNPACK_ALIGNMENT 4,
          Call.glPixelStorei PixelStoreParam.GL_UNPACK_ROW_LENGTH 0,
          Call.av_frame_free fromFrame ])

/-! ## One synchronization event (`blend_frame`, lines 421-448) -/

/-- What the libraries hand to one run of `blend_frame`: the return value and
the two frame pointers of `ff_framesync_dualinput_get` (on a negative return
value `blend_frame` does not read them), the synchronizer's `pts` and
`time_base.den`, the result of `ff_get_video_buffer` should it be called, and
the return value of `ff_filter_frame` should it be called. -/
structure Event where
  ret : ℤ
  fromFrame : Option Frame
  toFrame : Option Frame
  pts : ℤ
  den : ℤ
  alloc : Option Frame
  filter_ret : ℤ

/-- What one run of a callback leaves behind: its return value, the context
and the calls made, in order. -/
structure Outcome where
  ret : ℤ
  ctx : GLTransitionContext
  trace : List Call

/-- `blend_frame`; `none` when `apply_transition` has no defined behaviour. -/
def blend_frame (F D : Rounding) (c : GLTransitionContext) (links : Links) (e : Event) :
    Option Outcome :=
  if e.ret < 0 then
    some ⟨e.ret, c, [Call.ff_framesync_dualinput_get]⟩
  else
    let c1 : GLTransitionContext :=
      match e.fromFrame with
      | some f =>
        if c.first_pts = AV_NOPTS_VALUE ∧ f.pts ≠ AV_NOPTS_VALUE then
          { c with first_pts := f.pts }
        else c
      | none => c
    match e.toFrame with
    | none =>
      some ⟨e.filter_ret, c1, [Call.ff_framesync_dualinput_get, Call.ff_filter_frame e.fromFrame]⟩
    | some toFrame =>
      match apply_transition F D c1 links e.pts e.den e.fromFrame toFrame e.alloc with
      | none => none
      | some (none, calls) =>
        some ⟨AVERROR_ENOMEM, c1, Call.ff_framesync_dualinput_get :: calls⟩
      | some (some outFrame, calls) =>
        some ⟨e.filter_ret, c1,
          Call.ff_framesync_dualinput_get :: calls ++ [Call.ff_filter_frame (some outFrame)]⟩

/-- `init` (lines 450-465): the event callback is registered and `first_pts`
is set to the unset value. -/
def init (c : GLTransitionContext) : ℤ × GLTransitionContext :=
  (0, { c with first_pts := AV_NOPTS_VALUE })

/-- The filter processing a sequence of synchronization events, one
`blend_frame` after the other; it stops where the behaviour is undefined. -/
def run (F D : Rounding) (links : Links) : GLTransitionContext → List Event →
    Option GLTransitionContext
  | c, [] => some c
  | c, e :: es =>
    match blend_frame F D c links e with
    | none => none
    | some r => run F D links r.ctx es

/-- The frames handed to `ff_filter_frame` in a trace, in order. -/
def submitted : List Call → List (Option Frame)
  | [] => []
  | Call.ff_filter_frame f :: rest => f :: submitted rest
  | _ :: rest => submitted rest

/-- Whether a call allocates an output buffer. -/
def Call.isAllocation : Call → Bool
  | Call.ff_get_video_buffer _ _ => true
  | _ => false

/-- Whether a call is one of the EGL and OpenGL calls of `apply_transition` or
writes into a frame. -/
def Call.isRenderCall : Call → Bool
  | Call.av_frame_copy_props _ _ => true
  | Call.eglMakeCurrent _ _ _ => true
  | Call.glUseProgram _ => true
  | Call.glUniform1f _ _ => true
  | Call.glPixelStorei _ _ => true
  | Call.glActiveTexture _ => true
  | Call.glBindTexture _ => true
  | Call.glTexImage2D _ _ _ => true
  | Call.glDrawArrays _ _ => true
  | Call.glReadPixels _ _ _ => true
  | _ => false

/-! ## Output configuration (`config_output`, lines 510-542) -/

/-- The return values of the two frame-synchronizer setup calls, should they
be made. -/
structure SyncSetup where
  init_dualinput_ret : ℤ
  configure_ret : ℤ

/-- `config_output`: the return value, the links afterwards and the calls
made, in order. -/
def config_output (links : Links) (env : SyncSetup) : ℤ × Links × List Call :=
  if links.fromLink.format ≠ links.toLink.format then
    (AVERROR_EINVAL, links, [Call.av_log_error "inputs must be of same pixel format\n"])
  else if links.fromLink.w ≠ links.toLink.w ∨ links.fromLink.h ≠ links.toLink.h then
    (AVERROR_EINVAL, links,
      [Call.av_log_error
        ("First input link %s parameters (size %dx%d) do not match the corresponding " ++
          "second input link %s parameters (size %dx%d)\n")])
  else
    let links1 : Links :=
      { links with
        outLink :=
          { links.outLink with
            w := links.fromLink.w
            h := links.fromLink.h
            frame_rate := links.fromLink.frame_rate } }
    if env.init_dualinput_ret < 0 then
      (env.init_dualinput_ret, links1, [Call.ff_framesync_init_dualinput])
    else
      (env.configure_ret, links1,
        [Call.ff_framesync_init_dualinput, Call.ff_framesync_configure])

/-! ## Pixel transfers between client memory and OpenGL -/

/-- The pixel-store state of the OpenGL context that the filter touches or
relies on. -/
structure PixelStore where
  unpackAlignment : ℤ
  unpackRowLength : ℤ
  packAlignment : ℤ
  packRowLength : ℤ
deriving DecidableEq

/-- The state of a fresh context: alignments 4, row lengths 0. -/
def PixelStore.initial : PixelStore := ⟨4, 0, 4, 0⟩

/-- The effect of `glPixelStorei`: a value that is not allowed raises
`GL_INVALID_VALUE` and leaves the state as it was. -/
def PixelStore.set (s : PixelStore) : PixelStoreParam → ℤ → PixelStore
  | PixelStoreParam.GL_UNPACK_ALIGNMENT, v =>
    if v = 1 ∨ v = 2 ∨ v = 4 ∨ v = 8 then { s with unpackAlignment := v } else s
  | PixelStoreParam.GL_UNPACK_ROW_LENGTH, v =>
    if 0 ≤ v then { s with unpackRowLength := v } else s
  | PixelStoreParam.GL_PACK_ROW_LENGTH, v =>
    if 0 ≤ v then { s with packRowLength := v } else s

/-- The distance in bytes between two consecutive rows of a `GL_RGB`,
`GL_UNSIGNED_BYTE` pixel rectangle in client memory, by the rule of OpenGL
(which is not part of src/): three bytes per pixel over the row length (the
image width when the row length is 0), rounded up to a multiple of the
alignment. -/
def rowStep (alignment rowLength width : ℤ) : ℤ :=
  let l := if 0 < rowLength then rowLength else width
  alignment * ((3 * l + alignment - 1) / alignment)

/-- One pixel transfer: the client buffer, the image size and the row step
OpenGL uses to walk the buffer. -/
structure Transfer where
  data : ℕ
  width : ℤ
  height : ℤ
  step : ℤ
deriving DecidableEq

/-- The byte offset at which a transfer addresses row `r` of the image. -/
def Transfer.rowOffset (t : Transfer) (r : ℤ) : ℤ := r * t.step

/-- The pixel transfers of a trace, in order: every `glTexImage2D` that reads
client memory under the unpack state at that point, every `glReadPixels` under
the pack state at that point. -/
def transfers : PixelStore → List Call → List Transfer
  | _, [] => []
  | s, Call.glPixelStorei pname v :: rest => transfers (s.set pname v) rest
  | s, Call.glTexImage2D w h (some data) :: rest =>
    ⟨data, w, h, rowStep s.unpackAlignment s.unpackRowLength w⟩ :: transfers s rest
  | s, Call.glReadPixels w h data :: rest =>
    ⟨data, w, h, rowStep s.packAlignment s.packRowLength w⟩ :: transfers s rest
  | s, _ :: rest => transfers s rest

/-- The pixel-store state after a trace. -/
def pixelStoreAfter : PixelStore → List Call → PixelStore
  | s, [] => s
  | s, Call.glPixelStorei pname v :: rest => pixelStoreAfter (s.set pname v) rest
  | s, _ :: rest => pixelStoreAfter s rest

/-! ## Shader sources and text assembly -/

/-- The NUL byte that ends a C string. -/
def NUL : Char := Char.ofNat 0

/-- The C string stored at the start of a byte array: the bytes before the
first NUL. -/
def cstr (bytes : List Char) : List Char := bytes.takeWhile (fun ch => ch != NUL)

/-- The string `v_shader_source`. -/
def v_shader_source : List Char :=
  ("attribute vec2 position;\n" ++
   "varying vec2 _uv;\n" ++
   "void main(void) \x7b\n" ++
   "  gl_Position = vec4(position, 0, 1);\n" ++
   "  vec2 uv = position * 0.5 + 0.5;\n" ++
   "  _uv = vec2(uv.x, 1.0 - uv.y);\n" ++
   "\x7d\n").toList

/-- The string `f_shader_template`. -/
def f_shader_template : List Char :=
  ("varying vec2 _uv;\n" ++
   "uniform sampler2D from;\n" ++
   "uniform sampler2D to;\n" ++
   "uniform float progress;\n" ++
   "uniform float ratio;\n" ++
   "uniform float _fromR;\n" ++
   "uniform float _toR;\n" ++
   "\n" ++
   "vec4 getFromColor(vec2 uv) \x7b\n" ++
   "  return texture2D(from, vec2(uv.x, 1.0 - uv.y));\n" ++
   "\x7d\n" ++
   "\n" ++
   "vec4 getToColor(vec2 uv) \x7b\n" ++
   "  return texture2D(to, vec2(uv.x, 1.0 - uv.y));\n" ++
   "\x7d\n" ++
   "\n" ++
   "\n%s\n" ++
   "void main() \x7b\n" ++
   "  gl_FragColor = transition(_uv);\n" ++
   "\x7d\n").toList

/-- The string `f_default_transition_source`. -/
def f_default_transition_source : List Char :=
  ("vec4 transition (vec2 uv) \x7b\n" ++
   "  return mix(\n" ++
   "    getFromColor(uv),\n" ++
   "    getToColor(uv),\n" ++
   "    progress\n" ++
   "  );\n" ++
   "\x7d\n").toList

/-- The text a `printf` format expands to, given its string arguments: `%s`
is replaced by the next argument (by nothing when none is left) and `%%` by a
percent sign; every other character is copied (no other conversion occurs in
the formats of this file). The flag tells that the character before was an
unconsumed `%`. -/
def expandFormatAux : Bool → List Char → List (List Char) → List Char
  | false, [], _ => []
  | true, [], _ => ['%']
  | false, ch :: rest, args =>
    if ch = '%' then expandFormatAux true rest args else ch :: expandFormatAux false rest args
  | true, ch :: rest, args =>
    if ch = 's' then
      match args with
      | a :: args1 => a ++ expandFormatAux false rest args1
      | [] => expandFormatAux false rest []
    else if ch = '%' then '%' :: expandFormatAux false rest args
    else '%' :: ch :: expandFormatAux false rest args

/-- The expansion of a whole format. -/
def expandFormat (fmt : List Char) (args : List (List Char)) : List Char :=
  expandFormatAux false fmt args

/-- The bytes `snprintf(buf, size, fmt, args)` writes to the start of `buf`: at
most `size - 1` bytes of the expansion, then a NUL; nothing when `size` is 0. -/
def snprintf (size : ℕ) (fmt : List Char) (args : List (List Char)) : List Char :=
  if size = 0 then [] else (expandFormat fmt args).take (size - 1) ++ [NUL]

/-- A zero-filled buffer of `size` bytes after `written` was stored at its
start. -/
def storeAtStart (size : ℕ) (written : List Char) : List Char :=
  written ++ List.replicate (size - written.length) NUL

/-! ## Building the program (`build_shader`, `build_program`, lines 141-217) -/

/-- What OpenGL answers during one `build_shader`: the name `glCreateShader`
returns, the answer of `glIsShader`, and whether the compile status is
`GL_TRUE`. -/
structure ShaderEnv where
  shader : ℕ
  isShader : Bool
  compiled : Bool

/-- `build_shader`: the returned shader name (0 on failure) and the calls. -/
def build_shader (env : ShaderEnv) (shader_source : List Char) (type : ShaderType) :
    ℕ × List Call :=
  if env.shader = 0 then
    (0, [Call.glCreateShader type env.shader])
  else if env.isShader = false then
    (0, [Call.glCreateShader type env.shader, Call.glIsShader env.shader false])
  else
    (if env.compiled then env.shader else 0,
      [ Call.glCreateShader type env.shader,
        Call.glIsShader env.shader true,
        Call.glShaderSource env.shader shader_source,
        Call.glCompileShader env.shader,
        Call.glGetShaderiv_COMPILE_STATUS env.shader env.compiled ])

/-- What the libraries answer during `build_program`: the two shader builds,
the bytes of the transition file (`none` when `fopen` fails), whether
`av_calloc` can serve a request, the name `glCreateProgram` returns and whether
the link status is `GL_TRUE`. -/
structure BuildEnv where
  vertex : ShaderEnv
  file : Option (List Char)
  calloc_ok : Bool
  fragment : ShaderEnv
  program : ℕ
  linked : Bool

/-- The local `source` of `build_program` after the file is read: the file's
bytes followed by a NUL, or `NULL` when no path is configured; with the calls
made. An error carries the calls up to the failure. -/
def read_source (env : BuildEnv) (c : GLTransitionContext) :
    Except (List Call) (Option (List Char) × List Call) :=
  match c.source with
  | none => Except.ok (none, [])
  | some path =>
    match env.file with
    | none =>
      Except.error
        [Call.fopen path false, Call.av_log_error "invalid transition source file \"%s\"\n"]
    | some bytes =>
      Except.ok (some (bytes ++ [NUL]), [Call.fopen path true, Call.read_and_fclose bytes])

/-- The local `transition_source`, as a C string. -/
def transition_source (source : Option (List Char)) : List Char :=
  match source with
  | some bytes => cstr bytes
  | none => f_default_transition_source

/-- The local `len`: the sum of the two string lengths, stored in an `int`. -/
def fragment_len (transition_source : List Char) : ℤ :=
  wrapInt32 ((f_shader_template.length : ℤ) + (transition_source.length : ℤ))

/-- `build_program`. A negative `len`, converted to `size_t`, asks for more
than 2^63 bytes, which `av_calloc` cannot serve. -/
def build_program (env : BuildEnv) (c : GLTransitionContext) : Outcome :=
  let vs := build_shader env.vertex v_shader_source ShaderType.GL_VERTEX_SHADER
  if vs.1 = 0 then
    ⟨-1, c, vs.2 ++ [Call.av_log_error "invalid vertex shader\n"]⟩
  else
    match read_source env c with
    | Except.error calls => ⟨-1, c, vs.2 ++ calls⟩
    | Except.ok (source, calls) =>
      let text := transition_source source
      let len := fragment_len text
      if len < 0 ∨ env.calloc_ok = false then
        ⟨AVERROR_ENOMEM, { c with f_shader_source := none },
          vs.2 ++ calls ++ [Call.av_calloc len false]⟩
      else
        let buf := storeAtStart len.toNat (snprintf len.toNat f_shader_template [text])
        let c1 : GLTransitionContext := { c with f_shader_source := some buf }
        let freed := if source.isSome then [Call.free_source] else []
        let fs := build_shader env.fragment (cstr buf) ShaderType.GL_FRAGMENT_SHADER
        let calls1 :=
          vs.2 ++ calls ++ [Call.av_calloc len true, Call.av_log_debug (cstr buf)] ++ freed ++ fs.2
        if fs.1 = 0 then
          ⟨-1, c1, calls1 ++ [Call.av_log_error "invalid fragment shader\n"]⟩
        else
          ⟨if env.linked then 0 else -1, { c1 with program := env.program },
            calls1 ++
              [ Call.glCreateProgram env.program,
                Call.glAttachShader env.program vs.1,
                Call.glAttachShader env.program fs.1,
                Call.glLinkProgram env.program,
                Call.glGetProgramiv_LINK_STATUS env.program env.linked ]⟩

/-! ## Setting up OpenGL (`setup_vbo`, `setup_tex`, `setup_uniforms`, `setup_gl`) -/

/-- What EGL and OpenGL answer during `setup_gl`: the display, configuration,
surface and context handles, the answers during `build_program`, the buffer
and texture names, and the attribute and uniform locations. -/
structure SetupEnv where
  eglDpy : ℕ
  eglCfg : ℕ
  eglSurf : ℕ
  eglCtx : ℕ
  build : BuildEnv
  posBuf : ℕ
  position : ℤ
  progress : ℤ
  ratio : ℤ
  _fromR : ℤ
  _toR : ℤ
  from_ : ℕ
  to_ : ℕ
  fromSampler : ℤ
  toSampler : ℤ

/-- `setup_vbo`. -/
def setup_vbo (env : SetupEnv) (c : GLTransitionContext) : GLTransitionContext × List Call :=
  ({ c with posBuf := env.posBuf },
    [ Call.glGenBuffers env.posBuf,
      Call.glBindBuffer env.posBuf,
      Call.glBufferData_position,
      Call.glGetAttribLocation c.program "position" env.position,
      Call.glEnableVertexAttribArray env.position,
      Call.glVertexAttribPointer env.position ])

/-- `setup_tex`. -/
def setup_tex (env : SetupEnv) (c : GLTransitionContext) (fromLink : Link) :
    GLTransitionContext × List Call :=
  ({ c with from_ := env.from_, to_ := env.to_ },
    [ Call.glGenTextures env.from_,
      Call.glActiveTexture 0,
      Call.glBindTexture env.from_,
      Call.glTexParameteri_clamp_linear,
      Call.glTexImage2D fromLink.w fromLink.h none,
      Call.glGetUniformLocation c.program "from" env.fromSampler,
      Call.glUniform1i env.fromSampler 0,
      Call.glGenTextures env.to_,
      Call.glActiveTexture 1,
      Call.glBindTexture env.to_,
      Call.glTexParameteri_clamp_linear,
      Call.glTexImage2D fromLink.w fromLink.h none,
      Call.glGetUniformLocation c.program "to" env.toSampler,
      Call.glUniform1i env.toSampler 1 ])

/-- `setup_uniforms`; the three aspect values are `fromLink->w / (float)fromLink->h`. -/
def setup_uniforms (F : Rounding) (env : SetupEnv) (c : GLTransitionContext) (fromLink : Link) :
    GLTransitionContext × List Call :=
  let aspect := Fp.div F (F.rnd fromLink.w) (F.rnd fromLink.h)
  ({ c with progress := env.progress, ratio := env.ratio, _fromR := env._fromR,
            _toR := env._toR },
    [ Call.glGetUniformLocation c.program "progress" env.progress,
      Call.glUniform1f env.progress (Fp.fin 0),
      Call.glGetUniformLocation c.program "ratio" env.ratio,
      Call.glUniform1f env.ratio aspect,
      Call.glGetUniformLocation c.program "_fromR" env._fromR,
      Call.glUniform1f env._fromR aspect,
      Call.glGetUniformLocation c.program "_toR" env._toR,
      Call.glUniform1f env._toR aspect ])

/-- `setup_gl`, the `config_props` callback of the from input. -/
def setup_gl (F : Rounding) (env : SetupEnv) (c : GLTransitionContext) (inLink : Link) :
    Outcome :=
  let c1 : GLTransitionContext :=
    { c with eglDpy := env.eglDpy, eglCfg := env.eglCfg, eglSurf := env.eglSurf,
             eglCtx := env.eglCtx }
  let calls :=
    [ Call.eglGetPlatformDisplayEXT env.eglDpy,
      Call.eglInitialize env.eglDpy,
      Call.av_log_debug_egl_version,
      Call.eglChooseConfig env.eglDpy env.eglCfg,
      Call.eglCreatePbufferSurface env.eglDpy env.eglCfg inLink.w inLink.h env.eglSurf,
      Call.eglBindAPI,
      Call.eglCreateContext env.eglDpy env.eglCfg env.eglCtx,
      Call.eglMakeCurrent env.eglDpy env.eglSurf env.eglCtx,
      Call.glewInit,
      Call.glViewport inLink.w inLink.h ]
  let built := build_program env.build c1
  if built.ret < 0 then
    ⟨built.ret, built.ctx, calls ++ built.trace⟩
  else
    let vbo := setup_vbo env built.ctx
    let uni := setup_uniforms F env vbo.1 inLink
    let tex := setup_tex env uni.1 inLink
    ⟨0, tex.1,
      calls ++ built.trace ++ [Call.glUseProgram built.ctx.program] ++ vbo.2 ++ uni.2 ++ tex.2⟩

/-! ## Teardown (`uninit`, lines 467-492) -/

/-- `uninit`: the context afterwards and the calls made, in order. -/
def uninit (c : GLTransitionContext) : GLTransitionContext × List Call :=
  let gl :=
    if c.eglDpy ≠ 0 then
      [ Call.glDeleteTextures c.from_,
        Call.glDeleteTextures c.to_,
        Call.glDeleteBuffers c.posBuf,
        Call.glDeleteProgram c.program,
        Call.eglTerminate c.eglDpy ]
    else []
  let text := if c.f_shader_source.isSome then [Call.av_freep_f_shader_source] else []
  ({ c with f_shader_source := none }, [Call.ff_framesync_uninit] ++ gl ++ text)

/-! ## Resources created and released -/

/-- A resource the filter acquires: the EGL display with its surface and
context, a shader object, a program object, a texture, a buffer object, the
fragment source text (`c->f_shader_source`, from `av_calloc`), the buffer that
holds the transition file (the local `source` of `build_program`, from
`malloc`). -/
inductive Resource where
  | platform (dpy : ℕ)
  | shader (name : ℕ)
  | program (name : ℕ)
  | texture (name : ℕ)
  | buffer (name : ℕ)
  | fragmentSource
  | sourceBuffer
deriving DecidableEq

/-- The resources the calls of a trace created: a creating call that returned
the null handle created nothing. -/
def created : List Call → List Resource
  | [] => []
  | Call.eglGetPlatformDisplayEXT dpy :: rest =>
    if dpy ≠ 0 then Resource.platform dpy :: created rest else created rest
  | Call.glCreateShader _ name :: rest =>
    if name ≠ 0 then Resource.shader name :: created rest else created rest
  | Call.glCreateProgram name :: rest =>
    if name ≠ 0 then Resource.program name :: created rest else created rest
  | Call.glGenTextures name :: rest =>
    if name ≠ 0 then Resource.texture name :: created rest else created rest
  | Call.glGenBuffers name :: rest =>
    if name ≠ 0 then Resource.buffer name :: created rest else created rest
  | Call.av_calloc _ ok :: rest =>
    if ok then Resource.fragmentSource :: created rest else created rest
  | Call.read_and_fclose _ :: rest => Resource.sourceBuffer :: created rest
  | _ :: rest => created rest

/-- The resources the release calls of a trace name, one entry per call. -/
def released : List Call → List Resource
  | [] => []
  | Call.eglTerminate dpy :: rest => Resource.platform dpy :: released rest
  | Call.glDeleteProgram name :: rest => Resource.program name :: released rest
  | Call.glDeleteTextures name :: rest => Resource.texture name :: released rest
  | Call.glDeleteBuffers name :: rest => Resource.buffer name :: released rest
  | Call.av_freep_f_shader_source :: rest => Resource.fragmentSource :: released rest
  | Call.free_source :: rest => Resource.sourceBuffer :: released rest
  | _ :: rest => released rest

/-- By the end of teardown every resource created during setup is released
exactly once, and teardown names no resource that was not created. The release
calls of setup itself count: `build_program` frees the transition-file buffer
on its own. -/
def ReleasedExactly (setupCalls uninitCalls : List Call) : Prop :=
  (∀ r ∈ created setupCalls,
    (released setupCalls).count r + (released uninitCalls).count r = 1) ∧
  (∀ r ∈ released uninitCalls, r ∈ created setupCalls)

/-! ## Definitions used to state the properties -/

/-- The timestamp an event latches into an unset `first_pts`: that of its from
frame, when the frame pair was obtained, the from frame is present and its
timestamp is valid. -/
def Event.latches (e : Event) : Option ℤ :=
  if e.ret < 0 then none
  else
    match e.fromFrame with
    | some f => if f.pts ≠ AV_NOPTS_VALUE then some f.pts else none
    | none => none

/-- An event on which `blend_frame` has defined behaviour: a to frame and an
output buffer come with a from frame (`ff_framesync_dualinput_get` asserts the
from frame on success). -/
def Event.defined (e : Event) : Prop :=
  0 ≤ e.ret → e.toFrame ≠ none → e.alloc ≠ none → e.fromFrame ≠ none

instance : DecidablePred Event.defined := fun e => by
  unfold Event.defined
  infer_instance

/-- The part of `f_shader_template` before its `%s`. -/
def f_shader_head : List Char := f_shader_template.takeWhile (fun ch => ch != '%')

/-- The part of `f_shader_template` after its `%s`. -/
def f_shader_tail : List Char := (f_shader_template.dropWhile (fun ch => ch != '%')).drop 2

/-! ## Concrete inputs -/

/-- A filter context after `init`, with the default options: duration 1.0,
offset 0.0, no transition file. -/
def defaultContext : GLTransitionContext :=
  (init (GLTransitionContext.zeroed (Fp.fin 1) (Fp.fin 0) none)).2

/-- Three RGB24 links of 10 by 2 pixels. -/
def smallLinks : Links :=
  ⟨⟨2, 10, 2, (25, 1)⟩, ⟨2, 10, 2, (25, 1)⟩, ⟨2, 10, 2, (25, 1)⟩⟩

/-- Two matching 640 by 480 inputs, the output link not yet configured. -/
def matchingLinks : Links :=
  ⟨⟨2, 640, 480, (25, 1)⟩, ⟨2, 640, 480, (25, 1)⟩, ⟨2, 0, 0, (0, 1)⟩⟩

/-- A 640 by 480 from input against an 800 by 600 to input. -/
def mismatchedLinks : Links :=
  ⟨⟨2, 640, 480, (25, 1)⟩, ⟨2, 800, 600, (25, 1)⟩, ⟨2, 0, 0, (0, 1)⟩⟩

/-- A from frame of 10 pixels a row with its rows padded to 32 bytes. -/
def paddedFrom : Frame := ⟨100, 32, 40, 7⟩

/-- A to frame of 10 pixels a row with its rows padded to 32 bytes. -/
def paddedTo : Frame := ⟨200, 32, 40, 8⟩

/-- An output buffer of 10 pixels a row with its rows padded to 32 bytes. -/
def paddedOut : Frame := ⟨300, 32, 0, 0⟩

/-- An event that blends: both frames present, the output buffer allocated. -/
def blendEvent : Event := ⟨0, some paddedFrom, some paddedTo, 40, 25, some paddedOut, 0⟩

/-- An event after the to input ended: only the from frame is present. -/
def passEvent : Event := ⟨0, some paddedFrom, none, 40, 25, none, 0⟩

/-- An event whose from frame carries no timestamp. -/
def untimedEvent : Event :=
  ⟨0, some ⟨100, 32, AV_NOPTS_VALUE, 7⟩, some paddedTo, 0, 25, some paddedOut, 0⟩

/-- An event for which the synchronizer reports an error. -/
def failedEvent : Event := ⟨-5, none, none, 0, 25, none, 0⟩

/-- A later event: a from frame with timestamp 80, the output buffer missing. -/
def lateEvent : Event := ⟨0, some ⟨100, 32, 80, 7⟩, some paddedTo, 80, 25, none, 0⟩

/-- A run of `setup_gl` in which the context is created, the vertex shader
compiles, no transition file is configured, and the fragment shader fails to
compile. -/
def fragmentFailure : SetupEnv where
  eglDpy := 1
  eglCfg := 1
  eglSurf := 1
  eglCtx := 1
  build :=
    { vertex := ⟨1, true, true⟩
      file := none
      calloc_ok := true
      fragment := ⟨2, true, false⟩
      program := 3
      linked := true }
  posBuf := 1
  position := 0
  progress := 0
  ratio := 1
  _fromR := 2
  _toR := 3
  from_ := 1
  to_ := 2
  fromSampler := 4
  toSampler := 5

/-- A run of `build_program` in which the transition file is read and
`av_calloc` then fails. -/
def callocFailure : BuildEnv where
  vertex := ⟨1, true, true⟩
  file := some "vec4 transition (vec2 uv) \x7b return getToColor(uv); \x7d\n".toList
  calloc_ok := false
  fragment := ⟨2, true, true⟩
  program := 3
  linked := true

/-- A transition file of 2^32 bytes, all of them the letter x. -/
def hugeSnippet : List Char := List.replicate (2 ^ 32) 'x'

/-- A run of `build_program` that reads the file of 2^32 bytes; every library
call succeeds. -/
def hugeBuild : BuildEnv where
  vertex := ⟨1, true, true⟩
  file := some hugeSnippet
  calloc_ok := true
  fragment := ⟨2, true, true⟩
  program := 3
  linked := true

/-- A run of `build_program` with a transition file that holds one function. -/
def fileBuild : BuildEnv where
  vertex := ⟨1, true, true⟩
  file := some "vec4 transition (vec2 uv) \x7b return getToColor(uv); \x7d\n".toList
  calloc_ok := true
  fragment := ⟨2, true, true⟩
  program := 3
  linked := true

/-! ## Lemmas on floating-point values -/

namespace Fp

theorem le_ninf_left {z : Fp} (h : z ≠ nan) : le ninf z := by
  cases z <;> simp_all [le]

theorem le_pinf_right {z : Fp} (h : z ≠ nan) : le z pinf := by
  cases z <;> simp_all [le]

theorem le_ne_nan_left {x y : Fp} (h : le x y) : x ≠ nan := by
  cases x <;> cases y <;> simp_all [le]

theorem le_ne_nan_right {x y : Fp} (h : le x y) : y ≠ nan := by
  cases x <;> cases y <;> simp_all [le]

theorem cvt_mono (R : Rounding) {x y : Fp} (h : le x y) : le (cvt R x) (cvt R y) := by
  cases x <;> cases y <;> simp_all [le, cvt]
  · exact le_ninf_left (R.rnd_ne_nan _)
  · exact R.rnd_mono _ _ h
  · exact le_pinf_right (R.rnd_ne_nan _)

theorem sub_mono (R : Rounding) {x y : Fp} (o : ℚ) (h : le x y) :
    le (sub R x (fin o)) (sub R y (fin o)) := by
  cases x <;> cases y <;> simp_all [le, sub]
  · exact le_ninf_left (R.rnd_ne_nan _)
  · exact R.rnd_mono _ _ (by linarith)
  · exact le_pinf_right (R.rnd_ne_nan _)

theorem div_mono (R : Rounding) {x y : Fp} {d : ℚ} (hd : 0 < d) (h : le x y) :
    le (div R x (fin d)) (div R y (fin d)) := by
  have hd0 : d ≠ 0 := ne_of_gt hd
  cases x <;> cases y <;> simp_all [le, div, le_of_lt hd]
  · exact le_ninf_left (R.rnd_ne_nan _)
  · exact R.rnd_mono _ _ (div_le_div_of_nonneg_right h (le_of_lt hd))
  · exact le_pinf_right (R.rnd_ne_nan _)


theorem between_zero_one {z : Fp} (h₀ : le (fin 0) z) (h₁ : le z (fin 1)) :
    ∃ q, z = fin q ∧ 0 ≤ q ∧ q ≤ 1 := by
  cases z <;> simp_all [le]

end Fp

theorem clamp_cases (x : Fp) :
    ∃ q, FFMAX (Fp.fin 0) (FFMIN (Fp.fin 1) x) = Fp.fin q ∧ 0 ≤ q ∧ q ≤ 1 := by
  cases x with
  | nan => exact ⟨1, by simp [FFMAX, FFMIN, Fp.gt]⟩
  | ninf => exact ⟨0, by simp [FFMAX, FFMIN, Fp.gt]⟩
  | pinf => exact ⟨1, by simp [FFMAX, FFMIN, Fp.gt]⟩
  | fin a =>
    by_cases h1 : a < 1
    · by_cases h0 : a < 0
      · exact ⟨0, by simp [FFMAX, FFMIN, Fp.gt, h1, h0]⟩
      · exact ⟨a, by simp [FFMAX, FFMIN, Fp.gt, h1, h0], not_lt.mp h0, le_of_lt h1⟩
    · exact ⟨1, by simp [FFMAX, FFMIN, Fp.gt, h1]⟩

theorem clamp_mono {x y : Fp} (h : Fp.le x y) :
    Fp.le (FFMAX (Fp.fin 0) (FFMIN (Fp.fin 1) x)) (FFMAX (Fp.fin 0) (FFMIN (Fp.fin 1) y)) := by
  cases x with
  | nan => exact absurd rfl (Fp.le_ne_nan_left h)
  | pinf =>
    cases y <;> simp [Fp.le] at h
    obtain ⟨q, hq, -, -⟩ := clamp_cases Fp.pinf
    rw [hq]
    simp [Fp.le]
  | ninf =>
    obtain ⟨q, hq, h0, -⟩ := clamp_cases y
    rw [hq]
    simpa [Fp.le, FFMAX, FFMIN, Fp.gt] using h0
  | fin a =>
    cases y with
    | nan => exact absurd rfl (Fp.le_ne_nan_right h)
    | ninf => simp [Fp.le] at h
    | pinf =>
      obtain ⟨q, hq, -, h1⟩ := clamp_cases (Fp.fin a)
      rw [hq]
      simpa [Fp.le, FFMAX, FFMIN, Fp.gt] using h1
    | fin b =>
      have hab : a ≤ b := h
      simp only [FFMAX, FFMIN, Fp.gt]
      split_ifs <;> simp_all [Fp.le, Fp.gt] <;> linarith

theorem wrapInt64_of_range {n : ℤ} (h₁ : -(2 ^ 63) ≤ n) (h₂ : n < 2 ^ 63) : wrapInt64 n = n := by
  unfold wrapInt64 Int.bmod
  norm_num at h₁ h₂ ⊢
  omega

theorem rnd_den_pos (F : Rounding) {den : ℤ} (hden : 0 < den) (hden32 : den < 2 ^ 31) :
    ∃ r : ℚ, F.rnd den = Fp.fin r ∧ 1 ≤ r := by
  have hq1 : (1 : ℚ) ≤ den := by exact_mod_cast hden
  have hq2 : (den : ℚ) ≤ 2 ^ 63 := by
    have : den ≤ 2 ^ 63 := by norm_num at hden32 ⊢; omega
    exact_mod_cast this
  obtain ⟨r, hr, -, -⟩ := F.rnd_int64 den (by linarith) hq2
  have hm := F.rnd_mono 1 den hq1
  rw [F.rnd_one, hr] at hm
  exact ⟨r, hr, hm⟩

/-! ## IEEE-754 rounding is a rounding function of the model -/

theorem roundNearestEven_intCast (n : ℤ) : roundNearestEven n = n := by
  simp [roundNearestEven]

theorem floor_le_roundNearestEven (x : ℚ) : ⌊x⌋ ≤ roundNearestEven x := by
  unfold roundNearestEven
  split_ifs <;> omega

theorem roundNearestEven_le_floor_succ (x : ℚ) : roundNearestEven x ≤ ⌊x⌋ + 1 := by
  unfold roundNearestEven
  split_ifs <;> omega

theorem roundNearestEven_mono {x y : ℚ} (h : x ≤ y) : roundNearestEven x ≤ roundNearestEven y := by
  rcases (Int.floor_mono h).lt_or_eq with hlt | heq
  · calc roundNearestEven x ≤ ⌊x⌋ + 1 := roundNearestEven_le_floor_succ x
      _ ≤ ⌊y⌋ := hlt
      _ ≤ roundNearestEven y := floor_le_roundNearestEven y
  · unfold roundNearestEven
    rw [heq]
    have hd : x - ⌊y⌋ ≤ y - ⌊y⌋ := by linarith
    split_ifs <;> first | omega | (exfalso; linarith)


theorem two_zpow_pos (g : ℤ) : (0 : ℚ) < 2 ^ g := zpow_pos (by norm_num) g

theorem ulpExponent_mono (p : ℕ) (emin : ℤ) {x y : ℚ} (hx : 0 < x) (h : x ≤ y) :
    ulpExponent p emin x ≤ ulpExponent p emin y := by
  have := Int.log_mono_right (b := 2) hx h
  unfold ulpExponent
  omega

theorem ieeeRoundMagnitude_nonneg (p : ℕ) (emin : ℤ) {x : ℚ} (hx : 0 ≤ x) :
    0 ≤ ieeeRoundMagnitude p emin x := by
  unfold ieeeRoundMagnitude
  have hg := two_zpow_pos (ulpExponent p emin x)
  have h0 : roundNearestEven 0 ≤ roundNearestEven (x / 2 ^ ulpExponent p emin x) :=
    roundNearestEven_mono (div_nonneg hx hg.le)
  have h00 : roundNearestEven 0 = 0 := by simpa using roundNearestEven_intCast 0
  rw [h00] at h0
  exact mul_nonneg (by exact_mod_cast h0) hg.le

theorem ieeeRoundMagnitude_le (p : ℕ) (emin : ℤ) (x : ℚ) :
    ieeeRoundMagnitude p emin x ≤ 2 ^ (ulpExponent p emin x + p) := by
  unfold ieeeRoundMagnitude
  set g := ulpExponent p emin x with hgdef
  have hg := two_zpow_pos g
  have hlog : x < 2 ^ (Int.log 2 x + 1) := by
    have := Int.lt_zpow_succ_log_self (b := 2) (by norm_num) x
    simpa using this
  have hle : (2 : ℚ) ^ (Int.log 2 x + 1) ≤ 2 ^ (g + p) := by
    apply zpow_le_zpow_right₀ (by norm_num)
    rw [hgdef]; unfold ulpExponent; omega
  have hx : x / 2 ^ g ≤ ((2 ^ p : ℤ) : ℚ) := by
    rw [div_le_iff₀ hg]
    push_cast
    rw [← zpow_natCast, ← zpow_add₀ (by norm_num)]
    rw [add_comm]
    exact (hlog.trans_le hle).le
  have hr := roundNearestEven_mono hx
  rw [roundNearestEven_intCast] at hr
  have hr' : (roundNearestEven (x / 2 ^ g) : ℚ) ≤ ((2 ^ p : ℤ) : ℚ) := by exact_mod_cast hr
  calc (roundNearestEven (x / 2 ^ g) : ℚ) * 2 ^ g ≤ ((2 ^ p : ℤ) : ℚ) * 2 ^ g :=
        mul_le_mul_of_nonneg_right hr' hg.le
    _ = 2 ^ (g + p) := by
        push_cast
        rw [← zpow_natCast, ← zpow_add₀ (by norm_num), add_comm]

theorem le_ieeeRoundMagnitude (p : ℕ) (hp : 1 ≤ p) (emin : ℤ) {x : ℚ} (hx : 0 < x)
    (hn : emin ≤ Int.log 2 x) :
    2 ^ (ulpExponent p emin x + p - 1) ≤ ieeeRoundMagnitude p emin x := by
  unfold ieeeRoundMagnitude
  set g := ulpExponent p emin x with hgdef
  have hg := two_zpow_pos g
  have hge : g + (p - 1 : ℕ) = Int.log 2 x := by
    rw [hgdef]; unfold ulpExponent; omega
  have hlog : (2 : ℚ) ^ (Int.log 2 x) ≤ x := by
    have := Int.zpow_log_le_self (b := 2) (by norm_num) hx
    simpa using this
  have hx' : ((2 ^ (p - 1) : ℤ) : ℚ) ≤ x / 2 ^ g := by
    rw [le_div_iff₀ hg]
    push_cast
    rw [← zpow_natCast, ← zpow_add₀ (by norm_num), add_comm, hge]
    exact hlog
  have hr := roundNearestEven_mono hx'
  rw [roundNearestEven_intCast] at hr
  have hr' : ((2 ^ (p - 1) : ℤ) : ℚ) ≤ (roundNearestEven (x / 2 ^ g) : ℚ) := by exact_mod_cast hr
  calc (2 : ℚ) ^ (g + p - 1) = ((2 ^ (p - 1) : ℤ) : ℚ) * 2 ^ g := by
        push_cast
        rw [← zpow_natCast, ← zpow_add₀ (by norm_num)]
        congr 1
        omega
    _ ≤ (roundNearestEven (x / 2 ^ g) : ℚ) * 2 ^ g := mul_le_mul_of_nonneg_right hr' hg.le

theorem ieeeRoundMagnitude_mono (p : ℕ) (hp : 1 ≤ p) (emin : ℤ) {x y : ℚ} (hx : 0 ≤ x)
    (h : x ≤ y) : ieeeRoundMagnitude p emin x ≤ ieeeRoundMagnitude p emin y := by
  rcases hx.lt_or_eq with hx0 | hx0
  · have hy0 : 0 < y := hx0.trans_le h
    rcases (ulpExponent_mono p emin hx0 h).lt_or_eq with hlt | heq
    · have hn : emin ≤ Int.log 2 y := by
        unfold ulpExponent at hlt
        omega
      calc ieeeRoundMagnitude p emin x ≤ 2 ^ (ulpExponent p emin x + p) :=
            ieeeRoundMagnitude_le p emin x
        _ ≤ 2 ^ (ulpExponent p emin y + p - 1) := by
            apply zpow_le_zpow_right₀ (by norm_num)
            omega
        _ ≤ ieeeRoundMagnitude p emin y := le_ieeeRoundMagnitude p hp emin hy0 hn
    · unfold ieeeRoundMagnitude
      rw [heq]
      have hg := two_zpow_pos (ulpExponent p emin y)
      have := roundNearestEven_mono (div_le_div_of_nonneg_right h hg.le)
      exact mul_le_mul_of_nonneg_right (by exact_mod_cast this) hg.le
  · rw [← hx0]
    have h0 : ieeeRoundMagnitude p emin 0 = 0 := by
      unfold ieeeRoundMagnitude
      have h00 : roundNearestEven 0 = 0 := by simpa using roundNearestEven_intCast 0
      simp [h00]
    rw [h0]
    exact ieeeRoundMagnitude_nonneg p emin (hx.trans h)


theorem ieeeRoundSigned_mono (p : ℕ) (hp : 1 ≤ p) (emin : ℤ) {x y : ℚ} (h : x ≤ y) :
    ieeeRoundSigned p emin x ≤ ieeeRoundSigned p emin y := by
  unfold ieeeRoundSigned
  by_cases hx : x < 0
  · by_cases hy : y < 0
    · simp only [hx, hy, if_true]
      exact neg_le_neg (ieeeRoundMagnitude_mono p hp emin (by linarith) (by linarith))
    · simp only [hx, hy, if_true, if_false]
      have h1 := ieeeRoundMagnitude_nonneg p emin (x := -x) (by linarith)
      have h2 := ieeeRoundMagnitude_nonneg p emin (x := y) (by linarith)
      linarith
  · have hy : ¬ y < 0 := by linarith
    simp only [hx, hy, if_false]
    exact ieeeRoundMagnitude_mono p hp emin (by linarith) h

theorem ieeeRoundMagnitude_zpow (p : ℕ) (hp : 1 ≤ p) (emin : ℤ) (k : ℤ) (hk : emin ≤ k) :
    ieeeRoundMagnitude p emin (2 ^ k) = 2 ^ k := by
  have hlog : Int.log 2 ((2 : ℚ) ^ k) = k := by
    have := Int.log_zpow (R := ℚ) (b := 2) (by norm_num) k
    simpa using this
  have hg : ulpExponent p emin (2 ^ k) = k - ((p - 1 : ℕ) : ℤ) := by
    unfold ulpExponent
    rw [hlog]
    omega
  unfold ieeeRoundMagnitude
  rw [hg]
  have hq : (2 : ℚ) ^ k / 2 ^ (k - ((p - 1 : ℕ) : ℤ)) = ((2 ^ (p - 1) : ℤ) : ℚ) := by
    rw [← zpow_sub₀ (by norm_num)]
    push_cast
    rw [← zpow_natCast]
    congr 1
    omega
  rw [hq, roundNearestEven_intCast]
  push_cast
  rw [← zpow_natCast, ← zpow_add₀ (by norm_num)]
  congr 1
  omega

theorem ieeeRound_mono (p : ℕ) (hp : 1 ≤ p) (emin emax : ℤ) {x y : ℚ} (h : x ≤ y) :
    Fp.le (ieeeRound p emin emax x) (ieeeRound p emin emax y) := by
  have hm := ieeeRoundSigned_mono p hp emin h
  have hB := two_zpow_pos (emax + 1)
  unfold ieeeRound
  split_ifs <;> simp only [Fp.le] <;> linarith

/-- IEEE-754 rounding to nearest, ties to even, is a `Rounding` for every binary
format with at least one significand bit, `emin ≤ 0` and `emax ≥ 63`. -/
theorem ieeeRound_isRounding (p : ℕ) (hp : 1 ≤ p) (emin emax : ℤ) (hmin : emin ≤ 0)
    (hmax : 63 ≤ emax) :
    ∃ R : Rounding, R.rnd = ieeeRound p emin emax := by
  have hone : ieeeRoundSigned p emin 1 = 1 := by
    have := ieeeRoundMagnitude_zpow p hp emin 0 hmin
    simpa [ieeeRoundSigned] using this
  have hzero : ieeeRoundSigned p emin 0 = 0 := by
    have h00 : roundNearestEven 0 = 0 := by simpa using roundNearestEven_intCast 0
    simp [ieeeRoundSigned, ieeeRoundMagnitude, h00]
  have hpow : ieeeRoundMagnitude p emin (2 ^ 63) = 2 ^ 63 := by
    have := ieeeRoundMagnitude_zpow p hp emin 63 (by omega)
    rw [show ((63 : ℤ)) = ((63 : ℕ) : ℤ) from rfl, zpow_natCast] at this
    exact this
  have hbig : ieeeRoundSigned p emin (2 ^ 63) = 2 ^ 63 := by
    have hpos : ¬ ((2 : ℚ) ^ 63 < 0) := by norm_num
    unfold ieeeRoundSigned
    rw [if_neg hpos, hpow]
  have hsmall : ieeeRoundSigned p emin (-(2 ^ 63)) = -(2 ^ 63) := by
    have hneg : (-((2 : ℚ) ^ 63) < 0) := by norm_num
    unfold ieeeRoundSigned
    rw [if_pos hneg, neg_neg, hpow]
  have hB : (2 : ℚ) ^ 64 ≤ 2 ^ (emax + 1) := by
    have : (2 : ℚ) ^ (64 : ℤ) ≤ 2 ^ (emax + 1) := zpow_le_zpow_right₀ (by norm_num) (by omega)
    rw [show ((64 : ℤ)) = ((64 : ℕ) : ℤ) from rfl, zpow_natCast] at this
    exact this
  refine ⟨⟨ieeeRound p emin emax, ?_, ?_, ?_, ?_, ?_⟩, rfl⟩
  · intro q
    unfold ieeeRound
    split_ifs <;> simp
  · intro a b hab
    exact ieeeRound_mono p hp emin emax hab
  · unfold ieeeRound
    rw [hzero]
    have h1 : ¬ ((2 : ℚ) ^ (emax + 1) ≤ 0) := not_le.mpr (two_zpow_pos _)
    have h2 : ¬ ((0 : ℚ) ≤ -(2 ^ (emax + 1))) := by
      have := two_zpow_pos (emax + 1); linarith
    simp [h1, h2]
  · unfold ieeeRound
    rw [hone]
    have h1 : ¬ ((2 : ℚ) ^ (emax + 1) ≤ 1) := by
      have : (2:ℚ)^64 > 1 := by norm_num
      linarith
    have h2 : ¬ ((1 : ℚ) ≤ -(2 ^ (emax + 1))) := by
      have := two_zpow_pos (emax + 1); linarith
    simp [h1, h2]
  · intro q hlo hhi
    have h1 := ieeeRoundSigned_mono p hp emin hlo
    have h2 := ieeeRoundSigned_mono p hp emin hhi
    rw [hsmall] at h1
    rw [hbig] at h2
    have h64 : (2:ℚ) ^ 63 < 2 ^ 64 := by norm_num
    unfold ieeeRound
    have c1 : ¬ ((2 : ℚ) ^ (emax + 1) ≤ ieeeRoundSigned p emin q) := by
      intro hc; linarith
    have c2 : ¬ (ieeeRoundSigned p emin q ≤ -(2 ^ (emax + 1))) := by
      intro hc; linarith
    exact ⟨ieeeRoundSigned p emin q, by simp [c1, c2], h1, h2⟩

/-- The formats `float` and `double` of the platforms the filter runs on,
binary32 and binary64 with rounding to nearest, are `Rounding`s. -/
theorem binary32_binary64_rounding :
    ∃ F D : Rounding, F.rnd = ieeeRound 24 (-126) 127 ∧ D.rnd = ieeeRound 53 (-1022) 1023 := by
  obtain ⟨F, hF⟩ := ieeeRound_isRounding 24 (by norm_num) (-126) 127 (by norm_num) (by norm_num)
  obtain ⟨D, hD⟩ := ieeeRound_isRounding 53 (by norm_num) (-1022) 1023 (by norm_num) (by norm_num)
  exact ⟨F, D, hF, hD⟩

/-! ## Progress: range, monotonicity, end points -/

/-- Claim C1: for every `first_pts`, `pts`, time-base denominator, offset and
duration (also outside the ranges the options allow, and for a NaN or infinite
quotient), the progress `apply_transition` computes is a finite value in the
closed interval [0, 1]. -/
theorem progress_in_unit_interval (F D : Rounding) (pts first_pts den : ℤ)
    (offset duration : Fp) :
    ∃ q, progress F D pts first_pts den offset duration = Fp.fin q ∧ 0 ≤ q ∧ q ≤ 1 := by
  unfold progress
  obtain ⟨q, hq, h0, h1⟩ :=
    clamp_cases (Fp.div D (transitionTs F D pts first_pts den offset) duration)
  rw [hq]
  have hlo := F.rnd_mono 0 q h0
  have hhi := F.rnd_mono q 1 h1
  rw [F.rnd_zero] at hlo
  rw [F.rnd_one] at hhi
  exact Fp.between_zero_one hlo hhi

/-- Claim C2, amended: with `first_pts`, the offset, a duration > 0 and a
denominator 0 < den < 2^31 fixed, progress is non-decreasing in `pts` over the
presentation times for which `pts - first_pts` fits `int64_t`. -/
theorem progress_monotone (F D : Rounding) (first_pts p1 p2 den : ℤ) (o d : ℚ)
    (hden : 0 < den) (hden32 : den < 2 ^ 31) (hd : 0 < d)
    (h1 : -(2 ^ 63) ≤ p1 - first_pts) (h2 : p2 - first_pts < 2 ^ 63) (h : p1 ≤ p2) :
    Fp.le (progress F D p1 first_pts den (Fp.fin o) (Fp.fin d))
      (progress F D p2 first_pts den (Fp.fin o) (Fp.fin d)) := by
  obtain ⟨r, hr, hr1⟩ := rnd_den_pos F hden hden32
  have hw1 : wrapInt64 (p1 - first_pts) = p1 - first_pts :=
    wrapInt64_of_range h1 (by omega)
  have hw2 : wrapInt64 (p2 - first_pts) = p2 - first_pts :=
    wrapInt64_of_range (by omega) h2
  have hq : ((p1 - first_pts : ℤ) : ℚ) ≤ ((p2 - first_pts : ℤ) : ℚ) := by
    exact_mod_cast (by omega : p1 - first_pts ≤ p2 - first_pts)
  unfold progress transitionTs
  rw [hw1, hw2, hr]
  apply Fp.cvt_mono
  apply clamp_mono
  apply Fp.div_mono D hd
  apply Fp.cvt_mono
  apply Fp.sub_mono
  apply Fp.div_mono F (by linarith)
  exact F.rnd_mono _ _ hq

/-- Instance of C2 as amended: with a denominator of 25, the frame one second
after the first has at least the progress of the first. -/
theorem progress_monotone_witness :
    Fp.le (progress exactRounding exactRounding 1000 1000 25 (Fp.fin 0) (Fp.fin 1))
      (progress exactRounding exactRounding 1025 1000 25 (Fp.fin 0) (Fp.fin 1)) :=
  progress_monotone exactRounding exactRounding 1000 1000 1025 25 0 1
    (by norm_num) (by norm_num) (by norm_num) (by norm_num) (by norm_num) (by norm_num)

/-- Counterexample to C2 as stated: with `first_pts` still unset
(`AV_NOPTS_VALUE`), denominator 1, offset 0 and duration 1, the difference
`pts - first_pts` wraps between `pts = -1` and `pts = 0`, and progress falls
from 1 to 0. -/
theorem progress_overflow_counterexample :
    (-1 : ℤ) ≤ 0 ∧
    progress exactRounding exactRounding (-1) AV_NOPTS_VALUE 1 (Fp.fin 0) (Fp.fin 1) = Fp.fin 1 ∧
    progress exactRounding exactRounding 0 AV_NOPTS_VALUE 1 (Fp.fin 0) (Fp.fin 1) = Fp.fin 0 := by
  have e1 : wrapInt64 (-1 - AV_NOPTS_VALUE) = 2 ^ 63 - 1 := by decide
  have e2 : wrapInt64 (0 - AV_NOPTS_VALUE) = -(2 ^ 63) := by decide
  refine ⟨by decide, ?_, ?_⟩
  · unfold progress transitionTs
    rw [e1]
    norm_num [exactRounding, Fp.div, Fp.sub, Fp.cvt, FFMAX, FFMIN, Fp.gt]
  · unfold progress transitionTs
    rw [e2]
    norm_num [exactRounding, Fp.div, Fp.sub, Fp.cvt, FFMAX, FFMIN, Fp.gt]

/-- Under arithmetic without rounding error, and while `pts - first_pts` fits
`int64_t`, the progress of `apply_transition` is the clamped quotient
`max(0, min(1, ((pts - first_pts) / den - offset) / duration))`. -/
theorem progress_exact_formula (pts first_pts den : ℤ) (o d : ℚ) (hden : den ≠ 0)
    (hd : d ≠ 0) (h1 : -(2 ^ 63) ≤ pts - first_pts) (h2 : pts - first_pts < 2 ^ 63) :
    progress exactRounding exactRounding pts first_pts den (Fp.fin o) (Fp.fin d) =
      Fp.fin (max 0 (min 1 ((((pts - first_pts : ℤ) : ℚ) / den - o) / d))) := by
  have hq : (den : ℚ) ≠ 0 := by exact_mod_cast hden
  unfold progress transitionTs
  rw [wrapInt64_of_range h1 h2]
  simp only [exactRounding, Fp.div, Fp.sub, Fp.cvt, hq, hd, if_false]
  generalize (((pts - first_pts : ℤ) : ℚ) / den - o) / d = x
  by_cases c1 : x < 1
  · by_cases c0 : x < 0
    · simp [FFMAX, FFMIN, Fp.gt, c1, c0, min_eq_right c1.le, max_eq_left c0.le]
    · simp [FFMAX, FFMIN, Fp.gt, c1, c0, min_eq_right c1.le, max_eq_right (not_lt.mp c0)]
  · norm_num [FFMAX, FFMIN, Fp.gt, c1, min_eq_left (not_lt.mp c1)]

/-- Instance of `progress_exact_formula`: half a second into a transition of one
second. -/
theorem progress_exact_formula_witness :
    progress exactRounding exactRounding 1050 1000 100 (Fp.fin 0) (Fp.fin 1) =
      Fp.fin (max 0 (min 1 ((((1050 - 1000 : ℤ) : ℚ) / (100 : ℤ) - 0) / 1))) :=
  progress_exact_formula 1050 1000 100 0 1 (by norm_num) (by norm_num) (by norm_num)
    (by norm_num)

theorem rnd_upper_range (R : Rounding) {q : ℚ} (h1 : 1 ≤ q) (h2 : q ≤ 2 ^ 63) :
    ∃ r, R.rnd q = Fp.fin r ∧ 1 ≤ r ∧ r ≤ 2 ^ 63 := by
  obtain ⟨r, hr, -, hhi⟩ := R.rnd_int64 q (by linarith) h2
  have hm := R.rnd_mono 1 q h1
  rw [R.rnd_one, hr] at hm
  exact ⟨r, hr, hm, hhi⟩

theorem rnd_lower_range (R : Rounding) {q : ℚ} (h1 : -(2 ^ 63) ≤ q) (h2 : q ≤ 0) :
    ∃ r, R.rnd q = Fp.fin r ∧ -(2 ^ 63) ≤ r ∧ r ≤ 0 := by
  obtain ⟨r, hr, hlo, -⟩ := R.rnd_int64 q h1 (by linarith)
  have hm := R.rnd_mono q 0 h2
  rw [R.rnd_zero, hr] at hm
  exact ⟨r, hr, hlo, hm⟩

/-- The drop of progress at the wrap of `pts - first_pts` does not depend on
the rounding: with `first_pts` unset, denominator 1, offset 0 and duration 1,
every floating-point format of the model yields progress 1 at `pts = -1` and
progress 0 at `pts = 0`. -/
theorem progress_overflow_any_rounding (F D : Rounding) :
    progress F D (-1) AV_NOPTS_VALUE 1 (Fp.fin 0) (Fp.fin 1) = Fp.fin 1 ∧
    progress F D 0 AV_NOPTS_VALUE 1 (Fp.fin 0) (Fp.fin 1) = Fp.fin 0 := by
  have e1 : wrapInt64 (-1 - AV_NOPTS_VALUE) = 2 ^ 63 - 1 := by decide
  have e2 : wrapInt64 (0 - AV_NOPTS_VALUE) = -(2 ^ 63) := by decide
  have one : F.rnd ((1 : ℤ) : ℚ) = Fp.fin 1 := by
    rw [Int.cast_one]; exact F.rnd_one
  have h10 : (1 : ℚ) ≠ 0 := one_ne_zero
  constructor
  · obtain ⟨r1, hr1, a1, b1⟩ := rnd_upper_range F (q := ((2 ^ 63 - 1 : ℤ) : ℚ))
      (by norm_num) (by norm_num)
    obtain ⟨r2, hr2, a2, b2⟩ := rnd_upper_range F a1 b1
    obtain ⟨r3, hr3, a3, b3⟩ := rnd_upper_range D a2 b2
    obtain ⟨r4, hr4, a4, b4⟩ := rnd_upper_range F a3 b3
    obtain ⟨r5, hr5, a5, b5⟩ := rnd_upper_range D a4 b4
    have n5 : ¬ r5 < 1 := not_lt.mpr a5
    unfold progress transitionTs
    rw [e1, hr1, one]
    simp only [Fp.div, h10, if_false, div_one, hr2, Fp.sub, sub_zero, hr3, Fp.cvt, hr4, hr5,
      FFMIN, Fp.gt, n5, decide_False, Bool.false_eq_true]
    norm_num [FFMAX, Fp.gt, F.rnd_one]
  · obtain ⟨r1, hr1, a1, b1⟩ := rnd_lower_range F (q := ((-(2 ^ 63) : ℤ) : ℚ))
      (by norm_num) (by norm_num)
    obtain ⟨r2, hr2, a2, b2⟩ := rnd_lower_range F a1 b1
    obtain ⟨r3, hr3, a3, b3⟩ := rnd_lower_range D a2 b2
    obtain ⟨r4, hr4, a4, b4⟩ := rnd_lower_range F a3 b3
    obtain ⟨r5, hr5, a5, b5⟩ := rnd_lower_range D a4 b4
    have n5 : r5 < 1 := by linarith
    unfold progress transitionTs
    rw [e2, hr1, one]
    simp only [Fp.div, h10, if_false, div_one, hr2, Fp.sub, sub_zero, hr3, Fp.cvt, hr4, hr5,
      FFMIN, Fp.gt, n5, decide_True, if_true]
    by_cases h0 : r5 < 0
    · simp [FFMAX, Fp.gt, h0, F.rnd_zero]
    · have : r5 = 0 := le_antisymm b5 (not_lt.mp h0)
      simp [FFMAX, Fp.gt, this, F.rnd_zero]

/-- Claim C7: with offset 0 and duration 1.0, for every `first_pts` and every
denominator 0 < den < 2^31, progress is exactly 0 at `pts = first_pts` and
exactly 1 at `pts = first_pts + den`. -/
theorem progress_endpoints (F D : Rounding) (first_pts den : ℤ)
    (hden : 0 < den) (hden32 : den < 2 ^ 31) :
    progress F D first_pts first_pts den (Fp.fin 0) (Fp.fin 1) = Fp.fin 0 ∧
    progress F D (first_pts + den) first_pts den (Fp.fin 0) (Fp.fin 1) = Fp.fin 1 := by
  obtain ⟨r, hr, hr1⟩ := rnd_den_pos F hden hden32
  have hr0 : r ≠ 0 := by linarith
  have hw0 : wrapInt64 (first_pts - first_pts) = 0 := by
    rw [sub_self]; exact wrapInt64_of_range (by norm_num) (by norm_num)
  have hw1 : wrapInt64 (first_pts + den - first_pts) = den := by
    rw [add_sub_cancel_left]
    exact wrapInt64_of_range (by norm_num at hden32 ⊢; omega) (by norm_num at hden32 ⊢; omega)
  constructor
  · unfold progress transitionTs
    rw [hw0, hr]
    simp [Fp.div, Fp.sub, Fp.cvt, hr0, F.rnd_zero, D.rnd_zero, D.rnd_one, FFMAX, FFMIN, Fp.gt]
  · unfold progress transitionTs
    rw [hw1, hr]
    norm_num [Fp.div, Fp.sub, Fp.cvt, hr0, F.rnd_one, D.rnd_zero, D.rnd_one, FFMAX, FFMIN, Fp.gt]

/-- Instance of C7: `first_pts = 1000` in a time base of denominator 25. -/
theorem progress_endpoints_witness :
    progress exactRounding exactRounding 1000 1000 25 (Fp.fin 0) (Fp.fin 1) = Fp.fin 0 ∧
    progress exactRounding exactRounding (1000 + 25) 1000 25 (Fp.fin 0) (Fp.fin 1) = Fp.fin 1 :=
  progress_endpoints exactRounding exactRounding 1000 25 (by norm_num) (by norm_num)

/-! ## Pixel transfers and row strides -/

/-- The pixel transfers of one `apply_transition` on frames with non-negative
strides: the from and to uploads step `rowStep 1 (linesize / 3) w` bytes a row,
the read-back steps `rowStep 4 (linesize / 3) w` bytes, and the pixel-store
state is back at its initial values afterwards. -/
theorem transfers_apply_transition (F D : Rounding) (c : GLTransitionContext) (links : Links)
    (pts den : ℤ) (f t o : Frame) (hf : 0 ≤ f.linesize) (ht : 0 ≤ t.linesize)
    (ho : 0 ≤ o.linesize) :
    ∃ out calls, apply_transition F D c links pts den (some f) t (some o) = some (some out, calls) ∧
      transfers PixelStore.initial calls =
        [ ⟨f.data, links.fromLink.w, links.fromLink.h,
            rowStep 1 (f.linesize / 3) links.fromLink.w⟩,
          ⟨t.data, links.toLink.w, links.toLink.h,
            rowStep 1 (t.linesize / 3) links.toLink.w⟩,
          ⟨o.data, links.outLink.w, links.outLink.h,
            rowStep 4 (o.linesize / 3) links.outLink.w⟩ ] ∧
      pixelStoreAfter PixelStore.initial calls = PixelStore.initial := by
  have h3 : (0 : ℤ) ≤ 3 := by norm_num
  have ef : Int.tdiv f.linesize 3 = f.linesize / 3 := Int.tdiv_eq_ediv hf h3
  have et : Int.tdiv t.linesize 3 = t.linesize / 3 := Int.tdiv_eq_ediv ht h3
  have eo : Int.tdiv o.linesize 3 = o.linesize / 3 := Int.tdiv_eq_ediv ho h3
  have df : 0 ≤ f.linesize / 3 := Int.ediv_nonneg hf h3
  have dt : 0 ≤ t.linesize / 3 := Int.ediv_nonneg ht h3
  have dout : 0 ≤ o.linesize / 3 := Int.ediv_nonneg ho h3
  refine ⟨_, _, rfl, ?_, ?_⟩
  · simp [transfers, PixelStore.set, PixelStore.initial, ef, et, eo, df, dt, dout]
  · simp [pixelStoreAfter, PixelStore.set, PixelStore.initial, ef, et, eo, df, dt, dout]

/-- Instance of `transfers_apply_transition`: three frames of stride 32. -/
theorem transfers_apply_transition_witness :
    ∃ out calls,
      apply_transition exactRounding exactRounding defaultContext smallLinks 40 25
        (some paddedFrom) paddedTo (some paddedOut) = some (some out, calls) ∧
      transfers PixelStore.initial calls =
        [ ⟨paddedFrom.data, smallLinks.fromLink.w, smallLinks.fromLink.h,
            rowStep 1 (paddedFrom.linesize / 3) smallLinks.fromLink.w⟩,
          ⟨paddedTo.data, smallLinks.toLink.w, smallLinks.toLink.h,
            rowStep 1 (paddedTo.linesize / 3) smallLinks.toLink.w⟩,
          ⟨paddedOut.data, smallLinks.outLink.w, smallLinks.outLink.h,
            rowStep 4 (paddedOut.linesize / 3) smallLinks.outLink.w⟩ ] ∧
      pixelStoreAfter PixelStore.initial calls = PixelStore.initial :=
  transfers_apply_transition exactRounding exactRounding defaultContext smallLinks 40 25
    paddedFrom paddedTo paddedOut (by decide) (by decide) (by decide)

/-- The upload of a frame of stride `s ≥ 3` (unpack alignment 1, row length
`s / 3`) steps exactly `s` bytes a row if and only if `s` is a multiple of 3. -/
theorem upload_step_exact_iff (s w : ℤ) (hs : 3 ≤ s) : rowStep 1 (s / 3) w = s ↔ s % 3 = 0 := by
  have h : 0 < s / 3 := by omega
  simp only [rowStep, h, if_true]
  omega

/-- Instance of `upload_step_exact_iff`: the stride 1920 of an unpadded row of
640 pixels. -/
theorem upload_step_exact_iff_witness : rowStep 1 (1920 / 3) 640 = 1920 ↔ (1920 : ℤ) % 3 = 0 :=
  upload_step_exact_iff 1920 640 (by norm_num)

/-- The read-back into a frame of stride `s ≥ 3` (pack alignment 4, row length
`s / 3`) steps exactly `s` bytes a row whenever `s` is a multiple of 4. -/
theorem readback_step_exact (s w : ℤ) (hs : 3 ≤ s) (h4 : s % 4 = 0) :
    rowStep 4 (s / 3) w = s := by
  have h : 0 < s / 3 := by omega
  simp only [rowStep, h, if_true]
  omega

/-- Instance of `readback_step_exact`: the stride 32 of a padded row of 10
pixels. -/
theorem readback_step_exact_witness : rowStep 4 (32 / 3) 10 = 32 :=
  readback_step_exact 32 10 (by norm_num) (by norm_num)

/-- Claim C3 at a failing input: for frames of 10 by 2 pixels whose rows are
padded to a stride of 32 bytes, both uploads walk the buffer in steps of
3 * (32 / 3) = 30 bytes, so row 1 is read at byte 30 where it starts at byte
32; only the read-back, under pack alignment 4, steps by 32. -/
theorem padded_stride_upload_skew :
    (apply_transition exactRounding exactRounding defaultContext smallLinks 40 25
        (some paddedFrom) paddedTo (some paddedOut)).map
      (fun r => transfers PixelStore.initial r.2) =
      some [⟨100, 10, 2, 30⟩, ⟨200, 10, 2, 30⟩, ⟨300, 10, 2, 32⟩] ∧
    (apply_transition exactRounding exactRounding defaultContext smallLinks 40 25
        (some paddedFrom) paddedTo (some paddedOut)).map
      (fun r => (transfers PixelStore.initial r.2).map (fun t => t.rowOffset 1)) =
      some [30, 30, 32] ∧
    1 * paddedFrom.linesize = 32 := by
  decide

/-! ## One synchronization event -/

/-- Claim C4: when the frame pair is obtained and the to frame is absent,
`blend_frame` hands exactly the from frame it received to `ff_filter_frame`,
returns what that call returns, and makes no other call: no output buffer is
allocated and nothing is uploaded, drawn or read back. -/
theorem blend_frame_passthrough (F D : Rounding) (c : GLTransitionContext) (links : Links)
    (e : Event) (hret : 0 ≤ e.ret) (hto : e.toFrame = none) :
    ∃ r, blend_frame F D c links e = some r ∧ r.ret = e.filter_ret ∧
      r.trace = [Call.ff_framesync_dualinput_get, Call.ff_filter_frame e.fromFrame] ∧
      submitted r.trace = [e.fromFrame] ∧
      ∀ call ∈ r.trace, call.isAllocation = false ∧ call.isRenderCall = false := by
  have h : ¬ e.ret < 0 := not_lt.mpr hret
  simp [blend_frame, h, hto, submitted, Call.isAllocation, Call.isRenderCall]

/-- Instance of C4: the event after the to input ended. -/
theorem blend_frame_passthrough_witness :
    ∃ r, blend_frame exactRounding exactRounding defaultContext smallLinks passEvent = some r ∧
      r.ret = passEvent.filter_ret ∧
      r.trace = [Call.ff_framesync_dualinput_get, Call.ff_filter_frame passEvent.fromFrame] ∧
      submitted r.trace = [passEvent.fromFrame] ∧
      ∀ call ∈ r.trace, call.isAllocation = false ∧ call.isRenderCall = false :=
  blend_frame_passthrough exactRounding exactRounding defaultContext smallLinks passEvent
    (by decide) rfl

/-- Claim C5: one run of `blend_frame` submits exactly one frame when the
frame pair is obtained and, with a to frame present, the output buffer is
allocated: the from frame itself without a to frame, the rendered frame with
one. When obtaining the pair fails, that error is returned and nothing is
submitted. When the output buffer cannot be allocated, `apply_transition`
returns no frame after the allocation attempt alone, `blend_frame` returns
`AVERROR(ENOMEM)` and nothing is submitted. -/
theorem blend_frame_one_output (F D : Rounding) (c : GLTransitionContext) (links : Links)
    (e : Event) :
    (e.ret < 0 →
      ∃ r, blend_frame F D c links e = some r ∧ r.ret = e.ret ∧ submitted r.trace = []) ∧
    (0 ≤ e.ret → e.toFrame = none →
      ∃ r, blend_frame F D c links e = some r ∧ r.ret = e.filter_ret ∧
        submitted r.trace = [e.fromFrame]) ∧
    (∀ f t o, 0 ≤ e.ret → e.fromFrame = some f → e.toFrame = some t → e.alloc = some o →
      ∃ r, blend_frame F D c links e = some r ∧ r.ret = e.filter_ret ∧
        submitted r.trace = [some { o with pts := f.pts, props := f.props }]) ∧
    (∀ t, 0 ≤ e.ret → e.toFrame = some t → e.alloc = none →
      ∃ r, blend_frame F D c links e = some r ∧ r.ret = AVERROR_ENOMEM ∧
        submitted r.trace = [] ∧
        r.trace = [Call.ff_framesync_dualinput_get,
          Call.ff_get_video_buffer links.outLink.w links.outLink.h] ∧
        ∀ call ∈ r.trace, call.isRenderCall = false) := by
  refine ⟨?_, ?_, ?_, ?_⟩
  · intro h
    simp [blend_frame, h, submitted]
  · intro h hto
    have h' : ¬ e.ret < 0 := not_lt.mpr h
    simp [blend_frame, h', hto, submitted]
  · intro f t o h hf ht ho
    have h' : ¬ e.ret < 0 := not_lt.mpr h
    simp [blend_frame, h', hf, ht, ho, apply_transition, submitted]
  · intro t h ht ho
    have h' : ¬ e.ret < 0 := not_lt.mpr h
    simp [blend_frame, h', ht, ho, apply_transition, submitted, Call.isRenderCall]

/-- Instance of C5: the blending event submits the one rendered frame. -/
theorem blend_frame_one_output_witness :
    ∃ r, blend_frame exactRounding exactRounding defaultContext smallLinks blendEvent = some r ∧
      r.ret = blendEvent.filter_ret ∧
      submitted r.trace = [some { paddedOut with pts := paddedFrom.pts, props := paddedFrom.props }] :=
  (blend_frame_one_output exactRounding exactRounding defaultContext smallLinks blendEvent).2.2.1
    paddedFrom paddedTo paddedOut (by decide) rfl rfl rfl

/-! ## The latch of `first_pts` -/

theorem blend_frame_first_pts (F D : Rounding) (c : GLTransitionContext) (links : Links)
    (e : Event) (r : Outcome) (h : blend_frame F D c links e = some r) :
    r.ctx.first_pts =
      if c.first_pts = AV_NOPTS_VALUE then (e.latches).getD AV_NOPTS_VALUE else c.first_pts := by
  unfold blend_frame at h
  unfold Event.latches
  by_cases hret : e.ret < 0
  · simp only [hret, if_true, Option.some.injEq] at h
    subst h
    by_cases h0 : c.first_pts = AV_NOPTS_VALUE <;> simp [h0, hret]
  · simp only [hret, if_false] at h
    cases hf : e.fromFrame with
    | none =>
      simp only [hf] at h
      cases ht : e.toFrame with
      | none =>
        simp only [ht, Option.some.injEq] at h
        subst h
        by_cases h0 : c.first_pts = AV_NOPTS_VALUE <;> simp [h0]
      | some t =>
        simp only [ht] at h
        cases ha : e.alloc with
        | none =>
          simp only [ha, apply_transition, Option.some.injEq] at h
          subst h
          by_cases h0 : c.first_pts = AV_NOPTS_VALUE <;> simp [h0]
        | some o => simp [ha, apply_transition] at h
    | some f =>
      simp only [hf] at h
      have key : r.ctx = (if c.first_pts = AV_NOPTS_VALUE ∧ f.pts ≠ AV_NOPTS_VALUE then
          { c with first_pts := f.pts } else c) := by
        cases ht : e.toFrame with
        | none =>
          simp only [ht, Option.some.injEq] at h
          subst h
          rfl
        | some t =>
          simp only [ht] at h
          cases ha : e.alloc with
          | none =>
            simp only [ha, apply_transition, Option.some.injEq] at h
            subst h
            rfl
          | some o =>
            simp only [ha, apply_transition, Option.some.injEq] at h
            subst h
            rfl
      rw [key]
      by_cases h1 : c.first_pts = AV_NOPTS_VALUE <;> by_cases h2 : f.pts = AV_NOPTS_VALUE <;>
        simp [h1, h2, hret]

theorem blend_frame_defined (F D : Rounding) (c : GLTransitionContext) (links : Links)
    (e : Event) (h : e.defined) : ∃ r, blend_frame F D c links e = some r := by
  unfold Event.defined at h
  unfold blend_frame
  by_cases hret : e.ret < 0
  · simp [hret]
  · simp only [hret, if_false]
    cases ht : e.toFrame with
    | none => simp
    | some t =>
      cases ha : e.alloc with
      | none => simp [apply_transition]
      | some o =>
        cases hf : e.fromFrame with
        | none =>
          exact absurd hf (h (not_lt.mp hret) (by simp [ht]) (by simp [ha]))
        | some f => simp [apply_transition]

theorem run_first_pts (F D : Rounding) (links : Links) (events : List Event) :
    ∀ c : GLTransitionContext, (∀ e ∈ events, e.defined) →
      ∃ c1, run F D links c events = some c1 ∧
        c1.first_pts =
          if c.first_pts = AV_NOPTS_VALUE then
            ((events.filterMap Event.latches).head?).getD AV_NOPTS_VALUE
          else c.first_pts := by
  induction events with
  | nil =>
    intro c _
    refine ⟨c, rfl, ?_⟩
    by_cases h0 : c.first_pts = AV_NOPTS_VALUE <;> simp [h0]
  | cons e es ih =>
    intro c hdef
    obtain ⟨r, hr⟩ := blend_frame_defined F D c links e (hdef e (List.mem_cons_self _ _))
    have hfp := blend_frame_first_pts F D c links e r hr
    obtain ⟨c1, hc1, hc1fp⟩ := ih r.ctx (fun e1 h1 => hdef e1 (List.mem_cons_of_mem _ h1))
    refine ⟨c1, by simp [run, hr, hc1], ?_⟩
    rw [hc1fp, hfp]
    by_cases h0 : c.first_pts = AV_NOPTS_VALUE
    · cases hl : e.latches with
      | none => simp [h0, hl, List.filterMap_cons]
      | some p =>
        have hp : p ≠ AV_NOPTS_VALUE := by
          unfold Event.latches at hl
          split at hl
          · simp at hl
          · split at hl
            · split at hl
              · simp at hl; rw [← hl]; assumption
              · simp at hl
            · simp at hl
        simp [h0, hl, hp, List.filterMap_cons]
    · simp [h0]

/-- Claim C9: starting from the unset value written by `init`, after every
sequence of events on which `blend_frame` is defined, `first_pts` is the
timestamp of the first event whose frame pair was obtained with a from frame
carrying a valid timestamp, and the unset value when there is no such event:
later events, whatever they carry and however they end, leave it unchanged. -/
theorem first_pts_latched_once (F D : Rounding) (links : Links) (c : GLTransitionContext)
    (events : List Event) (h : ∀ e ∈ events, e.defined) :
    ∃ c1, run F D links (init c).2 events = some c1 ∧
      c1.first_pts = ((events.filterMap Event.latches).head?).getD AV_NOPTS_VALUE := by
  obtain ⟨c1, h1, h2⟩ := run_first_pts F D links events (init c).2 h
  exact ⟨c1, h1, by simpa [init] using h2⟩

/-- Instance of C9: a failed event, an untimed frame, then frames stamped 40,
80 and 40 again leave `first_pts` at 40. -/
theorem first_pts_latched_once_witness :
    ∃ c1, run exactRounding exactRounding smallLinks
        (init (GLTransitionContext.zeroed (Fp.fin 1) (Fp.fin 0) none)).2
        [failedEvent, untimedEvent, blendEvent, lateEvent, passEvent] = some c1 ∧
      c1.first_pts =
        (([failedEvent, untimedEvent, blendEvent, lateEvent, passEvent].filterMap
          Event.latches).head?).getD AV_NOPTS_VALUE ∧
      (([failedEvent, untimedEvent, blendEvent, lateEvent, passEvent].filterMap
          Event.latches).head?).getD AV_NOPTS_VALUE = 40 := by
  obtain ⟨c1, h1, h2⟩ :=
    first_pts_latched_once exactRounding exactRounding smallLinks
      (GLTransitionContext.zeroed (Fp.fin 1) (Fp.fin 0) none)
      [failedEvent, untimedEvent, blendEvent, lateEvent, passEvent] (by decide)
  exact ⟨c1, h1, h2, by decide⟩

/-! ## Output configuration -/

/-- Claim C6, amended: `config_output` returns `AVERROR(EINVAL)` without
calling the frame synchronizer if and only if the two input links differ in
pixel format, width or height; in that case the links, the output link's
width and height among them, are left as they were. When the inputs match,
the output link gets the width and height of the from input and the return
value is the frame synchronizer's: the negative result of
`ff_framesync_init_dualinput`, else the result of `ff_framesync_configure`. -/
theorem config_output_mismatch (links : Links) (env : SyncSetup) :
    ((links.fromLink.format ≠ links.toLink.format ∨ links.fromLink.w ≠ links.toLink.w ∨
        links.fromLink.h ≠ links.toLink.h) ↔
      ((config_output links env).1 = AVERROR_EINVAL ∧
        ∀ call ∈ (config_output links env).2.2,
          call ≠ Call.ff_framesync_init_dualinput ∧ call ≠ Call.ff_framesync_configure)) ∧
    ((links.fromLink.format ≠ links.toLink.format ∨ links.fromLink.w ≠ links.toLink.w ∨
        links.fromLink.h ≠ links.toLink.h) →
      (config_output links env).2.1 = links) ∧
    ((links.fromLink.format = links.toLink.format ∧ links.fromLink.w = links.toLink.w ∧
        links.fromLink.h = links.toLink.h) →
      (config_output links env).2.1.outLink.w = links.fromLink.w ∧
      (config_output links env).2.1.outLink.h = links.fromLink.h ∧
      (config_output links env).1 =
        (if env.init_dualinput_ret < 0 then env.init_dualinput_ret else env.configure_ret)) := by
  by_cases hf : links.fromLink.format = links.toLink.format
  · by_cases hw : links.fromLink.w = links.toLink.w
    · by_cases hh : links.fromLink.h = links.toLink.h
      · by_cases hi : env.init_dualinput_ret < 0 <;>
          simp [config_output, hf, hw, hh, hi]
      · simp [config_output, hf, hw, hh]
    · simp [config_output, hf, hw]
  · simp [config_output, hf]

/-- Instance of C6 as amended: 640 by 480 against 800 by 600 leaves the links
as they were. -/
theorem config_output_mismatch_witness :
    (config_output mismatchedLinks ⟨0, 0⟩).2.1 = mismatchedLinks :=
  (config_output_mismatch mismatchedLinks ⟨0, 0⟩).2.1 (Or.inr (Or.inl (by decide)))

/-- Counterexample to C6 as stated: two matching 640 by 480 inputs, and
`ff_framesync_configure` reports `AVERROR(EINVAL)`; `config_output` fails with
the invalid-argument error although the links do not differ. -/
theorem config_output_sync_error :
    (config_output matchingLinks ⟨0, AVERROR_EINVAL⟩).1 = AVERROR_EINVAL ∧
    ¬ (matchingLinks.fromLink.format ≠ matchingLinks.toLink.format ∨
        matchingLinks.fromLink.w ≠ matchingLinks.toLink.w ∨
        matchingLinks.fromLink.h ≠ matchingLinks.toLink.h) := by
  decide

/-! ## Fragment source assembly -/

theorem expandFormatAux_plain (head : List Char) (h : '%' ∉ head) (rest : List Char)
    (args : List (List Char)) :
    expandFormatAux false (head ++ rest) args = head ++ expandFormatAux false rest args := by
  induction head with
  | nil => rfl
  | cons ch head ih =>
    have hch : ch ≠ '%' := fun e => h (by simp [e])
    have hrest : '%' ∉ head := fun e => h (by simp [e])
    simp [expandFormatAux, hch, ih hrest]

set_option maxRecDepth 100000 in
theorem f_shader_template_split :
    f_shader_template = f_shader_head ++ '%' :: 's' :: f_shader_tail := by
  decide

set_option maxRecDepth 100000 in
theorem f_shader_head_plain : '%' ∉ f_shader_head ∧ NUL ∉ f_shader_head := by
  decide

set_option maxRecDepth 100000 in
theorem f_shader_tail_plain : '%' ∉ f_shader_tail ∧ NUL ∉ f_shader_tail := by
  decide

set_option maxRecDepth 100000 in
theorem f_shader_tail_eq :
    f_shader_tail = "\nvoid main() \x7b\n  gl_FragColor = transition(_uv);\n\x7d\n".toList := by
  decide


theorem expandFormat_template (snippet : List Char) :
    expandFormat f_shader_template [snippet] = f_shader_head ++ snippet ++ f_shader_tail := by
  have h : expandFormatAux false f_shader_tail [] = f_shader_tail := by
    have h0 := expandFormatAux_plain f_shader_tail f_shader_tail_plain.1 [] []
    rw [List.append_nil] at h0
    rw [h0]
    exact List.append_nil _
  have hs : expandFormatAux false ('%' :: 's' :: f_shader_tail) [snippet] =
      snippet ++ expandFormatAux false f_shader_tail [] := rfl
  unfold expandFormat
  rw [f_shader_template_split, expandFormatAux_plain _ f_shader_head_plain.1, hs, h,
    List.append_assoc]

theorem f_shader_template_length_eq :
    f_shader_template.length = f_shader_head.length + 2 + f_shader_tail.length := by
  conv_lhs => rw [f_shader_template_split]
  simp
  omega

theorem snprintf_template (snippet : List Char) :
    snprintf (f_shader_template.length + snippet.length) f_shader_template [snippet] =
      f_shader_head ++ snippet ++ f_shader_tail ++ [NUL] := by
  have hl := f_shader_template_length_eq
  have hne : f_shader_template.length + snippet.length ≠ 0 := by omega
  unfold snprintf
  rw [if_neg hne, expandFormat_template, List.take_of_length_le]
  simp only [List.length_append]
  omega

theorem cstr_append_nul (text rest : List Char) (h : NUL ∉ text) :
    cstr (text ++ NUL :: rest) = text := by
  induction text with
  | nil => simp [cstr, List.takeWhile]
  | cons ch text ih =>
    have hch : (ch != NUL) = true := bne_iff_ne.mpr (fun e => h (by simp [e]))
    have hrest : NUL ∉ text := fun e => h (by simp [e])
    have := ih hrest
    simp only [cstr] at this ⊢
    simp [List.takeWhile, hch, this]

theorem cstr_plain (bytes : List Char) : NUL ∉ cstr bytes := by
  induction bytes with
  | nil => simp [cstr]
  | cons ch bytes ih =>
    by_cases hch : ch = NUL
    · simp [cstr, List.takeWhile, hch]
    · have hb : (ch != NUL) = true := bne_iff_ne.mpr hch
      simp only [cstr] at ih ⊢
      simp only [List.takeWhile, hb, List.mem_cons, not_or]
      exact ⟨fun e => hch e.symm, ih⟩

theorem cstr_snoc_nul (bytes : List Char) : cstr (bytes ++ [NUL]) = cstr bytes := by
  induction bytes with
  | nil => simp [cstr, List.takeWhile]
  | cons ch bytes ih =>
    by_cases hch : ch = NUL
    · simp [cstr, List.takeWhile, hch]
    · have hb : (ch != NUL) = true := bne_iff_ne.mpr hch
      simp only [cstr] at ih ⊢
      simp [List.takeWhile, hb, ih]

set_option maxRecDepth 100000 in
theorem f_default_transition_source_plain : NUL ∉ f_default_transition_source := by
  decide

theorem transition_source_plain (source : Option (List Char)) :
    NUL ∉ transition_source source := by
  cases source with
  | none => exact f_default_transition_source_plain
  | some bytes => exact cstr_plain bytes

theorem wrapInt32_of_range {n : ℤ} (h₁ : -(2 ^ 31) ≤ n) (h₂ : n < 2 ^ 31) : wrapInt32 n = n := by
  unfold wrapInt32 Int.bmod
  norm_num at h₁ h₂ ⊢
  omega


theorem storeAtStart_snprintf (snippet : List Char) :
    storeAtStart (f_shader_template.length + snippet.length)
        (snprintf (f_shader_template.length + snippet.length) f_shader_template [snippet]) =
      f_shader_head ++ snippet ++ f_shader_tail ++ [NUL, NUL] := by
  have hl := f_shader_template_length_eq
  rw [snprintf_template]
  unfold storeAtStart
  have e : f_shader_template.length + snippet.length -
      (f_shader_head ++ snippet ++ f_shader_tail ++ [NUL]).length = 1 := by
    simp only [List.length_append, List.length_singleton]
    omega
  rw [e]
  simp

theorem fragment_len_of_fits (text : List Char)
    (h : (f_shader_template.length : ℤ) + (text.length : ℤ) < 2 ^ 31) :
    fragment_len text = ((f_shader_template.length + text.length : ℕ) : ℤ) := by
  unfold fragment_len
  rw [wrapInt32_of_range (by norm_num; omega) h]
  push_cast
  rfl

/-- Claim C10, amended: in every run of `build_program` that reaches the
assembly (the vertex shader built, the transition file read or none
configured, `av_calloc` serving the request) and in which the sum of the two
string lengths fits `int`, the buffer `f_shader_source` holds the template with
its one `%s` replaced by the whole snippet, followed by two NUL bytes: template
head, snippet, template tail ending in the `main()` that calls
`transition(_uv)`. The buffer is exactly `len` bytes long, its C string is the
untruncated text, and the snippet is the default linear mix without a
configured file and the file's C string with one. -/
theorem fragment_source_composition (env : BuildEnv) (c : GLTransitionContext)
    (source : Option (List Char)) (calls : List Call)
    (hv : (build_shader env.vertex v_shader_source ShaderType.GL_VERTEX_SHADER).1 ≠ 0)
    (hs : read_source env c = Except.ok (source, calls))
    (hlen : (f_shader_template.length : ℤ) + ((transition_source source).length : ℤ) < 2 ^ 31)
    (hok : env.calloc_ok = true) :
    f_shader_template = f_shader_head ++ "%s".toList ++ f_shader_tail ∧
    f_shader_tail =
      "\nvoid main() \x7b\n  gl_FragColor = transition(_uv);\n\x7d\n".toList ∧
    (build_program env c).ctx.f_shader_source =
      some (f_shader_head ++ transition_source source ++ f_shader_tail ++ [NUL, NUL]) ∧
    ((f_shader_head ++ transition_source source ++ f_shader_tail ++ [NUL, NUL]).length : ℤ) =
      fragment_len (transition_source source) ∧
    cstr (f_shader_head ++ transition_source source ++ f_shader_tail ++ [NUL, NUL]) =
      f_shader_head ++ transition_source source ++ f_shader_tail ∧
    (c.source = none → transition_source source = f_default_transition_source) ∧
    (∀ bytes, c.source ≠ none → env.file = some bytes →
      transition_source source = cstr bytes) := by
  have hfl := fragment_len_of_fits _ hlen
  have hst := storeAtStart_snprintf (transition_source source)
  refine ⟨?_, f_shader_tail_eq, ?_, ?_, ?_, ?_, ?_⟩
  · rw [f_shader_template_split]
    simp
  · have hneg : ¬ (fragment_len (transition_source source) < 0) := by
      rw [hfl]; exact not_lt.mpr (Int.natCast_nonneg _)
    unfold build_program
    simp only [hv, if_false, hs]
    simp only [hneg, hok, false_or, Bool.true_eq_false, if_false]
    by_cases hf : (build_shader env.fragment
        (cstr (storeAtStart (fragment_len (transition_source source)).toNat
          (snprintf (fragment_len (transition_source source)).toNat f_shader_template
            [transition_source source]))) ShaderType.GL_FRAGMENT_SHADER).1 = 0
    · simp only [hf, if_true]
      rw [hfl, Int.toNat_natCast, hst]
    · simp only [hf, if_false]
      rw [hfl, Int.toNat_natCast, hst]
  · rw [hfl]
    have hl := f_shader_template_length_eq
    simp only [List.length_append, List.length_cons, List.length_nil]
    push_cast
    omega
  · have hp : NUL ∉ f_shader_head ++ transition_source source ++ f_shader_tail := by
      simp only [List.mem_append, not_or]
      exact ⟨⟨f_shader_head_plain.2, transition_source_plain source⟩, f_shader_tail_plain.2⟩
    exact cstr_append_nul _ [NUL] hp
  · intro hnone
    simp only [read_source, hnone, Except.ok.injEq, Prod.mk.injEq] at hs
    rw [← hs.1]
    rfl
  · intro bytes hsome hfile
    cases hsrc : c.source with
    | none => exact absurd hsrc hsome
    | some path =>
      simp only [read_source, hsrc, hfile, Except.ok.injEq, Prod.mk.injEq] at hs
      rw [← hs.1]
      exact cstr_snoc_nul bytes

set_option maxRecDepth 100000 in
/-- Instance of C10 as amended: a transition file holding one function. -/
theorem fragment_source_composition_witness :
    (build_program fileBuild
        (GLTransitionContext.zeroed (Fp.fin 1) (Fp.fin 0) (some "fade.glsl"))).ctx.f_shader_source =
      some (f_shader_head ++
        transition_source
          (some ("vec4 transition (vec2 uv) \x7b return getToColor(uv); \x7d\n".toList ++ [NUL])) ++
        f_shader_tail ++ [NUL, NUL]) :=
  (fragment_source_composition fileBuild
    (GLTransitionContext.zeroed (Fp.fin 1) (Fp.fin 0) (some "fade.glsl"))
    (some ("vec4 transition (vec2 uv) \x7b return getToColor(uv); \x7d\n".toList ++ [NUL]))
    [Call.fopen "fade.glsl" true,
      Call.read_and_fclose "vec4 transition (vec2 uv) \x7b return getToColor(uv); \x7d\n".toList]
    (by decide) rfl (by decide) rfl).2.2.1

set_option maxRecDepth 100000 in
theorem f_shader_template_length : f_shader_template.length = 366 := by
  decide

theorem hugeSnippet_plain : NUL ∉ hugeSnippet := by
  intro h
  have := List.eq_of_mem_replicate h
  revert this
  decide

theorem build_program_buffer (env : BuildEnv) (c : GLTransitionContext)
    (source : Option (List Char)) (calls : List Call)
    (hv : (build_shader env.vertex v_shader_source ShaderType.GL_VERTEX_SHADER).1 ≠ 0)
    (hs : read_source env c = Except.ok (source, calls))
    (hlen : ¬ fragment_len (transition_source source) < 0) (hok : env.calloc_ok = true) :
    (build_program env c).ctx.f_shader_source =
      some (storeAtStart (fragment_len (transition_source source)).toNat
        (snprintf (fragment_len (transition_source source)).toNat f_shader_template
          [transition_source source])) := by
  unfold build_program
  simp only [hv, if_false, hs]
  simp only [hlen, hok, false_or, Bool.true_eq_false, if_false]
  split <;> rfl

/-- Counterexample to C10 as stated: for a transition file of 2^32 bytes the
sum of the two lengths wraps, in the `int` `len`, to 366, the length of the
template alone; the buffer has that many bytes, and the text stored in it is
shorter than the template with the snippet in place of `%s`. -/
theorem fragment_source_truncated :
    fragment_len (transition_source (some (hugeSnippet ++ [NUL]))) = 366 ∧
    ∃ buf,
      (build_program hugeBuild
        (GLTransitionContext.zeroed (Fp.fin 1) (Fp.fin 0) (some "huge.glsl"))).ctx.f_shader_source =
        some buf ∧
      buf.length = 366 ∧
      (cstr buf).length < (f_shader_head ++ hugeSnippet ++ f_shader_tail).length := by
  have hts : transition_source (some (hugeSnippet ++ [NUL])) = hugeSnippet :=
    cstr_append_nul hugeSnippet [] hugeSnippet_plain
  have hlen : hugeSnippet.length = 2 ^ 32 := List.length_replicate _ _
  have hfl : fragment_len hugeSnippet = 366 := by
    unfold fragment_len wrapInt32 Int.bmod
    rw [f_shader_template_length, hlen]
    decide
  have htl := f_shader_template_length_eq
  rw [f_shader_template_length] at htl
  have hbuf := build_program_buffer hugeBuild
    (GLTransitionContext.zeroed (Fp.fin 1) (Fp.fin 0) (some "huge.glsl"))
    (some (hugeSnippet ++ [NUL]))
    [Call.fopen "huge.glsl" true, Call.read_and_fclose hugeSnippet]
    (by decide) rfl (by rw [hts, hfl]; decide) rfl
  rw [hts, hfl] at hbuf
  have htext : (f_shader_head ++ hugeSnippet ++ f_shader_tail).length =
      f_shader_head.length + 2 ^ 32 + f_shader_tail.length := by
    simp only [List.length_append, hlen]
  have hwritten : (snprintf (366 : ℤ).toNat f_shader_template [hugeSnippet]).length = 366 := by
    unfold snprintf
    rw [expandFormat_template]
    have h366 : (366 : ℤ).toNat = 366 := rfl
    rw [h366, if_neg (by decide), List.length_append, List.length_take, htext]
    simp only [List.length_singleton]
    omega
  refine ⟨by rw [hts, hfl], _, hbuf, ?_, ?_⟩
  · unfold storeAtStart
    rw [List.length_append, List.length_replicate, hwritten]
    rfl
  · have hle : (cstr (storeAtStart (366 : ℤ).toNat
        (snprintf (366 : ℤ).toNat f_shader_template [hugeSnippet]))).length ≤ 366 := by
      unfold cstr storeAtStart
      refine le_trans (List.takeWhile_sublist _).length_le ?_
      rw [List.length_append, List.length_replicate, hwritten]
      exact le_of_eq rfl
    rw [htext]
    omega

/-! ## Teardown after a failed setup -/

theorem created_append (a b : List Call) : created (a ++ b) = created a ++ created b := by
  induction a with
  | nil => rfl
  | cons x xs ih =>
    cases x <;> simp [created, ih] <;> split <;> simp

theorem released_append (a b : List Call) : released (a ++ b) = released a ++ released b := by
  induction a with
  | nil => rfl
  | cons x xs ih =>
    cases x <;> simp [released, ih]

theorem build_shader_created (env : ShaderEnv) (text : List Char) (type : ShaderType) :
    ∀ res ∈ created (build_shader env text type).2, ∃ n, res = Resource.shader n := by
  unfold build_shader
  by_cases h0 : env.shader = 0
  · simp [h0, created]
  · by_cases h1 : env.isShader = false
    · simp [h0, h1, created]
    · simp [h0, h1, created]

theorem build_shader_released (env : ShaderEnv) (text : List Char) (type : ShaderType) :
    released (build_shader env text type).2 = [] := by
  unfold build_shader
  by_cases h0 : env.shader = 0
  · simp [h0, released]
  · by_cases h1 : env.isShader = false
    · simp [h0, h1, released]
    · simp [h0, h1, released]

theorem read_source_ok (env : BuildEnv) (c : GLTransitionContext) (source : Option (List Char))
    (calls : List Call) (h : read_source env c = Except.ok (source, calls)) :
    created calls = (if source.isSome then [Resource.sourceBuffer] else []) ∧
    released calls = [] := by
  unfold read_source at h
  split at h
  · simp only [Except.ok.injEq, Prod.mk.injEq] at h
    rw [← h.1, ← h.2]
    exact ⟨rfl, rfl⟩
  · split at h
    · simp at h
    · simp only [Except.ok.injEq, Prod.mk.injEq] at h
      rw [← h.1, ← h.2]
      exact ⟨rfl, rfl⟩

theorem read_source_error (env : BuildEnv) (c : GLTransitionContext) (calls : List Call)
    (h : read_source env c = Except.error calls) : created calls = [] ∧ released calls = [] := by
  unfold read_source at h
  split at h
  · simp at h
  · split at h
    · simp only [Except.error.injEq] at h
      rw [← h]
      exact ⟨rfl, rfl⟩
    · simp at h

theorem build_program_resources (env : BuildEnv) (c : GLTransitionContext)
    (hs : c.f_shader_source = none) :
    (build_program env c).ctx =
      { c with f_shader_source := (build_program env c).ctx.f_shader_source,
               program := (build_program env c).ctx.program } ∧
    ((build_program env c).ctx.program = c.program ∨
      ((build_program env c).ctx.program = env.program ∧
        (env.program ≠ 0 →
          Resource.program env.program ∈ created (build_program env c).trace))) ∧
    ((build_program env c).ctx.f_shader_source.isSome = true →
      Resource.fragmentSource ∈ created (build_program env c).trace) ∧
    (∀ res ∈ created (build_program env c).trace,
      (∃ n, res = Resource.shader n) ∨
      res = Resource.sourceBuffer ∨
      (res = Resource.fragmentSource ∧ (build_program env c).ctx.f_shader_source.isSome = true) ∨
      (res = Resource.program (build_program env c).ctx.program ∧
        (build_program env c).ctx.program ≠ 0)) ∧
    (∀ res ∈ released (build_program env c).trace, res = Resource.sourceBuffer) ∧
    ((build_program env c).ctx.f_shader_source.isSome = true →
      Resource.sourceBuffer ∈ created (build_program env c).trace →
      (released (build_program env c).trace).count Resource.sourceBuffer = 1) := by
  have hv := build_shader_created env.vertex v_shader_source ShaderType.GL_VERTEX_SHADER
  have hf := fun text => build_shader_created env.fragment text ShaderType.GL_FRAGMENT_SHADER
  have hvr := build_shader_released env.vertex v_shader_source ShaderType.GL_VERTEX_SHADER
  have hfr := fun text => build_shader_released env.fragment text ShaderType.GL_FRAGMENT_SHADER
  have hnv : Resource.sourceBuffer ∉
      created (build_shader env.vertex v_shader_source ShaderType.GL_VERTEX_SHADER).2 := by
    intro h
    obtain ⟨n, hn⟩ := hv _ h
    exact Resource.noConfusion hn
  have hnf : ∀ text, Resource.sourceBuffer ∉
      created (build_shader env.fragment text ShaderType.GL_FRAGMENT_SHADER).2 := by
    intro text h
    obtain ⟨n, hn⟩ := hf text _ h
    exact Resource.noConfusion hn
  unfold build_program
  by_cases h1 : (build_shader env.vertex v_shader_source ShaderType.GL_VERTEX_SHADER).1 = 0
  · simp only [h1, if_true]
    refine ⟨by simp, Or.inl trivial, by simp [hs], ?_, ?_, by simp [hs]⟩
    · intro res hres
      rw [created_append] at hres
      simp only [created, List.append_nil] at hres
      exact Or.inl (hv res hres)
    · intro res hres
      rw [released_append, hvr] at hres
      simp [released] at hres
  · simp only [h1, if_false]
    cases hsrc : read_source env c with
    | error calls =>
      obtain ⟨hce, hre⟩ := read_source_error env c calls hsrc
      simp only []
      refine ⟨by simp, Or.inl trivial, by simp [hs], ?_, ?_, by simp [hs]⟩
      · intro res hres
        rw [created_append, hce, List.append_nil] at hres
        exact Or.inl (hv res hres)
      · intro res hres
        rw [released_append, hvr, hre] at hres
        simp at hres
    | ok p =>
      obtain ⟨source, calls⟩ := p
      obtain ⟨hco, hro⟩ := read_source_ok env c source calls hsrc
      simp only []
      by_cases h2 : fragment_len (transition_source source) < 0 ∨ env.calloc_ok = false
      · simp only [h2, if_true]
        refine ⟨by simp, Or.inl trivial, by simp, ?_, ?_, by simp⟩
        · intro res hres
          simp only [created_append, hco, created, List.append_nil, List.mem_append] at hres
          simp only [Bool.false_eq_true, if_false, List.not_mem_nil, or_false] at hres
          rcases hres with hres | hres
          · exact Or.inl (hv res hres)
          · split at hres
            · exact Or.inr (Or.inl (List.mem_singleton.mp hres))
            · simp at hres
        · intro res hres
          simp only [released_append, hvr, hro, released, List.append_nil,
            List.not_mem_nil] at hres
      · simp only [h2, if_false]
        have hfree : created (if source.isSome = true then [Call.free_source] else []) = [] := by
          split <;> rfl
        have hfreed : released (if source.isSome = true then [Call.free_source] else []) =
            (if source.isSome = true then [Resource.sourceBuffer] else []) := by
          split <;> rfl
        have hrel : ∀ tail : List Call, released tail = [] →
            released
              ((build_shader env.vertex v_shader_source ShaderType.GL_VERTEX_SHADER).2 ++ calls ++
                    [Call.av_calloc (fragment_len (transition_source source)) true,
                      Call.av_log_debug
                        (cstr
                          (storeAtStart (fragment_len (transition_source source)).toNat
                            (snprintf (fragment_len (transition_source source)).toNat
                              f_shader_template [transition_source source])))] ++
                  (if source.isSome = true then [Call.free_source] else []) ++
                (build_shader env.fragment
                    (cstr
                      (storeAtStart (fragment_len (transition_source source)).toNat
                        (snprintf (fragment_len (transition_source source)).toNat
                          f_shader_template [transition_source source])))
                    ShaderType.GL_FRAGMENT_SHADER).2 ++ tail) =
              (if source.isSome = true then [Resource.sourceBuffer] else []) := by
          intro tail ht
          simp only [released_append, hvr, hro, hfreed, hfr, ht, released, List.append_nil,
            List.nil_append]
        have hcount : ∀ l : List Resource,
            l = (if source.isSome = true then [Resource.sourceBuffer] else []) →
            (∀ res ∈ l, res = Resource.sourceBuffer) ∧
            (source.isSome = true → l.count Resource.sourceBuffer = 1) := by
          intro l hl
          subst hl
          split <;> simp_all
        split
        · obtain ⟨hall, hone⟩ := hcount _ (hrel [Call.av_log_error "invalid fragment shader\n"] rfl)
          refine ⟨by simp, Or.inl rfl, ?_, ?_, hall, ?_⟩
          · intro _
            simp [created_append, hfree, created]
          · intro res hres
            simp only [created_append, hco, hfree, created, List.append_nil,
              List.mem_append, if_true, List.mem_singleton] at hres
            rcases hres with ((hres | hres) | hres) | hres
            · exact Or.inl (hv res hres)
            · split at hres
              · exact Or.inr (Or.inl (List.mem_singleton.mp hres))
              · simp at hres
            · exact Or.inr (Or.inr (Or.inl ⟨hres, rfl⟩))
            · exact Or.inl (hf _ res hres)
          · intro _ hmem
            apply hone
            simp only [created_append, hco, hfree, created, List.append_nil,
              List.mem_append, if_true, List.mem_singleton] at hmem
            rcases hmem with ((hmem | hmem) | hmem) | hmem
            · exact absurd hmem hnv
            · split at hmem
              · assumption
              · simp at hmem
            · exact Resource.noConfusion hmem
            · exact absurd hmem (hnf _)
        · obtain ⟨hall, hone⟩ := hcount _ (hrel
            [ Call.glCreateProgram env.program,
              Call.glAttachShader env.program
                (build_shader env.vertex v_shader_source ShaderType.GL_VERTEX_SHADER).1,
              Call.glAttachShader env.program
                (build_shader env.fragment
                  (cstr
                    (storeAtStart (fragment_len (transition_source source)).toNat
                      (snprintf (fragment_len (transition_source source)).toNat
                        f_shader_template [transition_source source])))
                  ShaderType.GL_FRAGMENT_SHADER).1,
              Call.glLinkProgram env.program,
              Call.glGetProgramiv_LINK_STATUS env.program env.linked ] rfl)
          refine ⟨by simp, Or.inr ⟨rfl, ?_⟩, ?_, ?_, hall, ?_⟩
          · intro hp
            simp [created_append, hfree, created, hp]
          · intro _
            simp [created_append, hfree, created]
          · intro res hres
            simp only [created_append, hco, hfree, created, List.append_nil,
              List.mem_append, if_true, List.mem_singleton] at hres
            rcases hres with (((hres | hres) | hres) | hres) | hres
            · exact Or.inl (hv res hres)
            · split at hres
              · exact Or.inr (Or.inl (List.mem_singleton.mp hres))
              · simp at hres
            · exact Or.inr (Or.inr (Or.inl ⟨hres, rfl⟩))
            · exact Or.inl (hf _ res hres)
            · split at hres
              · simp only [List.mem_singleton] at hres
                exact Or.inr (Or.inr (Or.inr ⟨hres, by assumption⟩))
              · simp at hres
          · intro _ hmem
            apply hone
            simp only [created_append, hco, hfree, created, List.append_nil,
              List.mem_append, if_true, List.mem_singleton] at hmem
            rcases hmem with (((hmem | hmem) | hmem) | hmem) | hmem
            · exact absurd hmem hnv
            · split at hmem
              · assumption
              · simp at hmem
            · exact Resource.noConfusion hmem
            · exact absurd hmem (hnf _)
            · split at hmem
              · simp at hmem
              · simp at hmem

theorem setup_gl_failed (F : Rounding) (env : SetupEnv) (c : GLTransitionContext)
    (inLink : Link) (hs : c.f_shader_source = none) (hd : env.eglDpy ≠ 0)
    (hfail : (setup_gl F env c inLink).ret < 0) :
    (setup_gl F env c inLink).ctx.from_ = c.from_ ∧
    (setup_gl F env c inLink).ctx.to_ = c.to_ ∧
    (setup_gl F env c inLink).ctx.posBuf = c.posBuf ∧
    (setup_gl F env c inLink).ctx.eglDpy = env.eglDpy ∧
    ((setup_gl F env c inLink).ctx.program = c.program ∨
      ((setup_gl F env c inLink).ctx.program = env.build.program ∧
        (env.build.program ≠ 0 →
          Resource.program env.build.program ∈ created (setup_gl F env c inLink).trace))) ∧
    ((setup_gl F env c inLink).ctx.f_shader_source.isSome = true →
      Resource.fragmentSource ∈ created (setup_gl F env c inLink).trace) ∧
    Resource.platform env.eglDpy ∈ created (setup_gl F env c inLink).trace ∧
    (∀ res ∈ created (setup_gl F env c inLink).trace,
      res = Resource.platform env.eglDpy ∨
      (∃ n, res = Resource.shader n) ∨
      res = Resource.sourceBuffer ∨
      (res = Resource.fragmentSource ∧
        (setup_gl F env c inLink).ctx.f_shader_source.isSome = true) ∨
      (res = Resource.program (setup_gl F env c inLink).ctx.program ∧
        (setup_gl F env c inLink).ctx.program ≠ 0)) ∧
    (∀ res ∈ released (setup_gl F env c inLink).trace, res = Resource.sourceBuffer) ∧
    ((setup_gl F env c inLink).ctx.f_shader_source.isSome = true →
      Resource.sourceBuffer ∈ created (setup_gl F env c inLink).trace →
      (released (setup_gl F env c inLink).trace).count Resource.sourceBuffer = 1) := by
  have key := build_program_resources env.build
    { c with eglDpy := env.eglDpy, eglCfg := env.eglCfg, eglSurf := env.eglSurf,
             eglCtx := env.eglCtx } hs
  unfold setup_gl at hfail ⊢
  simp only [] at key hfail ⊢
  generalize build_program env.build
    { duration := c.duration, offset := c.offset, source := c.source, first_pts := c.first_pts,
      from_ := c.from_, to_ := c.to_, progress := c.progress, ratio := c.ratio,
      _fromR := c._fromR, _toR := c._toR, posBuf := c.posBuf, program := c.program,
      eglDpy := env.eglDpy, eglCfg := env.eglCfg, eglSurf := env.eglSurf, eglCtx := env.eglCtx,
      f_shader_source := c.f_shader_source } = b at key hfail ⊢
  obtain ⟨hctx, hprog, hsrc, hcr, hrl, hbuf⟩ := key
  by_cases hb : b.ret < 0
  · simp only [hb, if_true] at hfail ⊢
    have hplat : ∀ t : List Call, created (Call.eglGetPlatformDisplayEXT env.eglDpy :: t) =
        Resource.platform env.eglDpy :: created t := by
      intro t; simp [created, hd]
    have htr : created
        ([ Call.eglGetPlatformDisplayEXT env.eglDpy,
           Call.eglInitialize env.eglDpy,
           Call.av_log_debug_egl_version,
           Call.eglChooseConfig env.eglDpy env.eglCfg,
           Call.eglCreatePbufferSurface env.eglDpy env.eglCfg inLink.w inLink.h env.eglSurf,
           Call.eglBindAPI,
           Call.eglCreateContext env.eglDpy env.eglCfg env.eglCtx,
           Call.eglMakeCurrent env.eglDpy env.eglSurf env.eglCtx,
           Call.glewInit,
           Call.glViewport inLink.w inLink.h ] ++ b.trace) =
        Resource.platform env.eglDpy :: created b.trace := by
      rw [created_append, hplat]
      rfl
    have hrel : released
        ([ Call.eglGetPlatformDisplayEXT env.eglDpy,
           Call.eglInitialize env.eglDpy,
           Call.av_log_debug_egl_version,
           Call.eglChooseConfig env.eglDpy env.eglCfg,
           Call.eglCreatePbufferSurface env.eglDpy env.eglCfg inLink.w inLink.h env.eglSurf,
           Call.eglBindAPI,
           Call.eglCreateContext env.eglDpy env.eglCfg env.eglCtx,
           Call.eglMakeCurrent env.eglDpy env.eglSurf env.eglCtx,
           Call.glewInit,
           Call.glViewport inLink.w inLink.h ] ++ b.trace) = released b.trace := by
      rw [released_append]
      rfl
    rw [htr, hrel]
    refine ⟨?_, ?_, ?_, ?_, ?_, ?_, ?_, ?_, hrl, ?_⟩
    · have h := congrArg GLTransitionContext.from_ hctx
      exact h
    · have h := congrArg GLTransitionContext.to_ hctx
      exact h
    · have h := congrArg GLTransitionContext.posBuf hctx
      exact h
    · have h := congrArg GLTransitionContext.eglDpy hctx
      exact h
    · rcases hprog with h | ⟨h, h'⟩
      · exact Or.inl h
      · exact Or.inr ⟨h, fun hp => List.mem_cons_of_mem _ (h' hp)⟩
    · exact fun h => List.mem_cons_of_mem _ (hsrc h)
    · exact List.mem_cons_self _ _
    · intro res hres
      rcases List.mem_cons.mp hres with h | h
      · exact Or.inl h
      · exact Or.inr (hcr res h)
    · intro hsome hmem
      rcases List.mem_cons.mp hmem with h | h
      · exact Resource.noConfusion h
      · exact hbuf hsome h
  · simp [hb] at hfail

/-- Claim C8, amended: when `setup_gl` has created the rendering context and
`build_program` then fails, `uninit` calls, once each and in this order,
`ff_framesync_uninit`, `glDeleteTextures` on the from and the to texture name
and `glDeleteBuffers` on the buffer name (all three still the null name 0),
`glDeleteProgram` on `c->program`, `eglTerminate` on the display, and
`av_freep` on the fragment source text exactly when it was allocated. Every
resource created up to the failure other than a shader object and the buffer
of the transition file is released exactly once by `uninit`; no shader object
is released, in setup or in `uninit`; a release call of `uninit` names a
created resource or the null name 0. The buffer of the transition file is not
among the resources `uninit` releases: setup releases nothing but that buffer,
and in the runs that allocated the fragment source text `build_program` has
freed it exactly once itself. -/
theorem teardown_after_failed_build (F : Rounding) (env : SetupEnv) (duration offset : Fp)
    (source : Option String) (inLink : Link) (r : Outcome)
    (hr : setup_gl F env (init (GLTransitionContext.zeroed duration offset source)).2 inLink = r)
    (hd : env.eglDpy ≠ 0) (hfail : r.ret < 0) :
    (uninit r.ctx).2 =
      [ Call.ff_framesync_uninit,
        Call.glDeleteTextures 0,
        Call.glDeleteTextures 0,
        Call.glDeleteBuffers 0,
        Call.glDeleteProgram r.ctx.program,
        Call.eglTerminate env.eglDpy ] ++
      (if r.ctx.f_shader_source.isSome then [Call.av_freep_f_shader_source] else []) ∧
    (∀ res ∈ created r.trace, (∀ n, res ≠ Resource.shader n) → res ≠ Resource.sourceBuffer →
      (released r.trace).count res = 0 ∧ (released (uninit r.ctx).2).count res = 1) ∧
    (∀ n, Resource.shader n ∉ released r.trace ∧ Resource.shader n ∉ released (uninit r.ctx).2) ∧
    (∀ res ∈ released (uninit r.ctx).2,
      res ∈ created r.trace ∨
      res = Resource.texture 0 ∨ res = Resource.buffer 0 ∨ res = Resource.program 0) ∧
    Resource.sourceBuffer ∉ released (uninit r.ctx).2 ∧
    (∀ res ∈ released r.trace, res = Resource.sourceBuffer) ∧
    (r.ctx.f_shader_source.isSome = true → Resource.sourceBuffer ∈ created r.trace →
      (released r.trace).count Resource.sourceBuffer = 1) := by
  subst hr
  obtain ⟨hfrom, hto, hbuf, hdpy, hprog, hsrc, hplat, hcr, hrl, hsb⟩ :=
    setup_gl_failed F env (init (GLTransitionContext.zeroed duration offset source)).2 inLink
      rfl hd hfail
  generalize setup_gl F env (init (GLTransitionContext.zeroed duration offset source)).2
    inLink = r at *
  have hfrom0 : r.ctx.from_ = 0 := hfrom
  have hto0 : r.ctx.to_ = 0 := hto
  have hbuf0 : r.ctx.posBuf = 0 := hbuf
  have hu : (uninit r.ctx).2 =
      [ Call.ff_framesync_uninit,
        Call.glDeleteTextures 0,
        Call.glDeleteTextures 0,
        Call.glDeleteBuffers 0,
        Call.glDeleteProgram r.ctx.program,
        Call.eglTerminate env.eglDpy ] ++
      (if r.ctx.f_shader_source.isSome then [Call.av_freep_f_shader_source] else []) := by
    simp [uninit, hdpy, hd, hfrom0, hto0, hbuf0]
  have hrel : released (uninit r.ctx).2 =
      [ Resource.texture 0, Resource.texture 0, Resource.buffer 0,
        Resource.program r.ctx.program, Resource.platform env.eglDpy ] ++
      (if r.ctx.f_shader_source.isSome then [Resource.fragmentSource] else []) := by
    rw [hu]
    split <;> rfl
  have hzero : ∀ res, res ≠ Resource.sourceBuffer → (released r.trace).count res = 0 := by
    intro res hne
    apply List.count_eq_zero_of_not_mem
    intro hmem
    exact hne (hrl res hmem)
  refine ⟨hu, ?_, ?_, ?_, ?_, hrl, hsb⟩
  · intro res hres hns hnb
    refine ⟨hzero res hnb, ?_⟩
    rw [hrel]
    rcases hcr res hres with h | ⟨n, h⟩ | h | ⟨h, h'⟩ | ⟨h, h'⟩
    · subst h
      split <;> simp
    · exact absurd h (hns n)
    · exact absurd h hnb
    · subst h
      simp [h']
    · subst h
      split <;> simp
  · intro n
    refine ⟨fun hmem => Resource.noConfusion (hrl _ hmem), ?_⟩
    rw [hrel]
    split <;> simp
  · intro res hres
    rw [hrel] at hres
    simp only [List.mem_append, List.mem_cons, List.mem_singleton, List.not_mem_nil,
      or_false] at hres
    rcases hres with (h | h | h | h | h) | h
    · exact Or.inr (Or.inl h)
    · exact Or.inr (Or.inl h)
    · exact Or.inr (Or.inr (Or.inl h))
    · rcases hprog with hp | ⟨hp, hp'⟩
      · have : r.ctx.program = 0 := hp
        exact Or.inr (Or.inr (Or.inr (by rw [h, this])))
      · by_cases h0 : env.build.program = 0
        · exact Or.inr (Or.inr (Or.inr (by rw [h, hp, h0])))
        · exact Or.inl (by rw [h, hp]; exact hp' h0)
    · exact Or.inl (by rw [h]; exact hplat)
    · split at h
      · rename_i hsome
        simp only [List.mem_singleton] at h
        exact Or.inl (by rw [h]; exact hsrc hsome)
      · simp at h
  · rw [hrel]
    split <;> simp

set_option maxRecDepth 100000 in
/-- Instance of C8 as amended: the fragment shader fails to compile. -/
theorem teardown_after_failed_build_witness :
    (uninit (setup_gl exactRounding fragmentFailure defaultContext
        matchingLinks.fromLink).ctx).2 =
      [ Call.ff_framesync_uninit,
        Call.glDeleteTextures 0,
        Call.glDeleteTextures 0,
        Call.glDeleteBuffers 0,
        Call.glDeleteProgram
          (setup_gl exactRounding fragmentFailure defaultContext
            matchingLinks.fromLink).ctx.program,
        Call.eglTerminate fragmentFailure.eglDpy ] ++
      (if (setup_gl exactRounding fragmentFailure defaultContext
            matchingLinks.fromLink).ctx.f_shader_source.isSome
        then [Call.av_freep_f_shader_source] else []) :=
  (teardown_after_failed_build exactRounding fragmentFailure (Fp.fin 1) (Fp.fin 0) none
    matchingLinks.fromLink _ rfl (by decide) (by decide)).1

set_option maxRecDepth 100000 in
/-- Counterexample to C8 as stated: the context is created, the vertex shader
(name 1) compiles and the fragment shader (name 2) does not. Neither setup nor
`uninit` releases a shader object, and `uninit` calls `glDeleteTextures`,
`glDeleteBuffers` and `glDeleteProgram` for objects that were never created. -/
theorem teardown_leaves_shader :
    (setup_gl exactRounding fragmentFailure defaultContext matchingLinks.fromLink).ret = -1 ∧
    created (setup_gl exactRounding fragmentFailure defaultContext
        matchingLinks.fromLink).trace =
      [Resource.platform 1, Resource.shader 1, Resource.fragmentSource, Resource.shader 2] ∧
    released (setup_gl exactRounding fragmentFailure defaultContext
        matchingLinks.fromLink).trace = [] ∧
    released (uninit (setup_gl exactRounding fragmentFailure defaultContext
        matchingLinks.fromLink).ctx).2 =
      [Resource.texture 0, Resource.texture 0, Resource.buffer 0, Resource.program 0,
        Resource.platform 1, Resource.fragmentSource] ∧
    ¬ ReleasedExactly
      (setup_gl exactRounding fragmentFailure defaultContext matchingLinks.fromLink).trace
      (uninit (setup_gl exactRounding fragmentFailure defaultContext
        matchingLinks.fromLink).ctx).2 := by
  refine ⟨by decide, by decide, by decide, by decide, ?_⟩
  intro h
  have h1 := h.1 (Resource.shader 1) (by decide)
  revert h1
  decide

/-- On the return that follows a failed `av_calloc`, the buffer that holds the
transition file is not freed: whenever the vertex shader is built, a
transition file is configured and read, and `av_calloc` fails, `build_program`
returns `AVERROR(ENOMEM)` with that buffer created and no release call at all
in its trace; and no `uninit` releases it. -/
theorem source_buffer_kept_on_calloc_failure (env : BuildEnv) (c : GLTransitionContext)
    (path : String) (bytes : List Char)
    (hv : (build_shader env.vertex v_shader_source ShaderType.GL_VERTEX_SHADER).1 ≠ 0)
    (hpath : c.source = some path) (hfile : env.file = some bytes)
    (hfailed : env.calloc_ok = false) :
    (build_program env c).ret = AVERROR_ENOMEM ∧
    Resource.sourceBuffer ∈ created (build_program env c).trace ∧
    released (build_program env c).trace = [] ∧
    ∀ c1 : GLTransitionContext, Resource.sourceBuffer ∉ released (uninit c1).2 := by
  have hvr := build_shader_released env.vertex v_shader_source ShaderType.GL_VERTEX_SHADER
  have hs : read_source env c =
      Except.ok (some (bytes ++ [NUL]), [Call.fopen path true, Call.read_and_fclose bytes]) := by
    simp [read_source, hpath, hfile]
  refine ⟨?_, ?_, ?_, ?_⟩
  · unfold build_program
    simp [hv, hs, hfailed]
  · unfold build_program
    simp [hv, hs, hfailed, created_append, created]
  · unfold build_program
    simp [hv, hs, hfailed, released_append, released, hvr]
  · intro c1
    unfold uninit
    by_cases h1 : c1.eglDpy = 0 <;> by_cases h2 : c1.f_shader_source.isSome = true <;>
      simp [h1, h2, released]

set_option maxRecDepth 100000 in
/-- Instance of `source_buffer_kept_on_calloc_failure`: a transition file that
holds one function. -/
theorem source_buffer_kept_on_calloc_failure_witness :
    (build_program callocFailure
        (GLTransitionContext.zeroed (Fp.fin 1) (Fp.fin 0) (some "fade.glsl"))).ret =
      AVERROR_ENOMEM ∧
    Resource.sourceBuffer ∈ created (build_program callocFailure
        (GLTransitionContext.zeroed (Fp.fin 1) (Fp.fin 0) (some "fade.glsl"))).trace ∧
    released (build_program callocFailure
        (GLTransitionContext.zeroed (Fp.fin 1) (Fp.fin 0) (some "fade.glsl"))).trace = [] :=
  have h := source_buffer_kept_on_calloc_failure callocFailure
    (GLTransitionContext.zeroed (Fp.fin 1) (Fp.fin 0) (some "fade.glsl")) "fade.glsl"
    "vec4 transition (vec2 uv) \x7b return getToColor(uv); \x7d\n".toList
    (by decide) rfl rfl rfl
  ⟨h.1, h.2.1, h.2.2.1⟩

end GLTransition
